import Mathlib

/-
  Verification development for the PowerFlowGame game core.

  Shallow embedding of the engine (src/engine/engine.py), the referee
  (engine/referee.py), the finance calculator (engine/finance.py) and the
  data model (models/assets.py, models/player.py, models/transmission.py,
  models/buses.py, models/game_state.py, models/ids.py, models/message.py).

  Modelling conventions:
  * python floats are embedded as exact rationals (Rat);
  * the pandas-backed LdcRepo layer is not in the sources; per the spec's
    repository contract (indexed lookup by unique id, filter views that never
    mutate, field-targeted updates returning a new repo) a repository is a
    Lean list of records and a field-targeted update `df.loc[id, col] = v`
    is a map that rewrites the record whose id matches;
  * python code that raises (KeyError on a missing id, AttributeError /
    assert on a missing market result) is embedded with Option: `none` is
    the raised exception;
  * the informational `message : str` text carried by outbound messages is
    elided: no game rule reads it back;
  * the LP solver (MarketCouplingCalculator.run) is out of scope per the
    spec; engine functions that invoke it take the solver as an explicit
    oracle argument `mcc : GameState -> MarketCouplingResult`.
-/

/-- Identifier types (models/ids.py) are nominal integers; PlayerId(-1) is the NPC. -/
abbrev PlayerId := Int

abbrev AssetId := Int

abbrev BusId := Int

/-- BuyRequest purchase_id is generic over AssetId or TransmissionId
(models/message.py); embedded as a tagged sum, as the spec's design notes suggest. -/
abbrev TransmissionId := Int

abbrev GameId := Int

/-- PlayerId.get_npc from models/ids.py. -/
def PlayerId.get_npc : PlayerId := -1

/-- AssetType from models/assets.py. -/
inductive AssetType
  | GENERATOR
  | LOAD
deriving DecidableEq, Repr

/-- AssetInfo from models/assets.py (field order as in the source). -/
structure AssetInfo where
  id : AssetId
  owner_player : PlayerId
  asset_type : AssetType
  bus : BusId
  power_expected : Rat
  power_std : Rat
  is_for_sale : Bool := false
  minimum_acquisition_price : Rat := 0
  fixed_operating_cost : Rat := 0
  marginal_cost : Rat := 0
  bid_price : Rat := 0
  is_freezer : Bool := false
  health : Nat := 0
  is_active : Bool := true
  birthday : Nat := 1
deriving DecidableEq, Repr

/-- AssetInfo.cashflow_sign from models/assets.py: +1 for generators, -1 for loads. -/
def AssetInfo.cashflow_sign (a : AssetInfo) : Int :=
  if a.asset_type = AssetType.GENERATOR then 1 else -1

/-- Player from models/player.py; Color is elided to a string. -/
structure Player where
  id : PlayerId
  name : String
  color : String
  money : Rat
  is_having_turn : Bool
  still_alive : Bool := true
deriving DecidableEq, Repr

/-- Bus from models/buses.py. -/
structure Bus where
  id : BusId
  x : Rat
  y : Rat
  player_id : PlayerId := PlayerId.get_npc
  max_lines : Nat := 5
  max_assets : Nat := 5
deriving DecidableEq, Repr

/-- TransmissionInfo from models/transmission.py. -/
structure TransmissionInfo where
  id : TransmissionId
  owner_player : PlayerId
  bus1 : BusId
  bus2 : BusId
  reactance : Rat
  capacity : Rat := 100
  health : Nat := 5
  fixed_operating_cost : Rat := 0
  is_for_sale : Bool := false
  minimum_acquisition_price : Rat := 0
  is_active : Bool := true
  birthday : Nat := 1
deriving DecidableEq, Repr

/-- TransmissionInfo.is_open from models/transmission.py: not is_active. -/
def TransmissionInfo.is_open (t : TransmissionInfo) : Bool := !t.is_active

/-- TransmissionInfo.is_closed from models/transmission.py: is_active. -/
def TransmissionInfo.is_closed (t : TransmissionInfo) : Bool := t.is_active

/-- Phase from models/game_state.py: three phases, CONSTRUCTION = 0,
SNEAKY_TRICKS = 1, DA_AUCTION = 2 (there is no BIDDING member in the source). -/
inductive Phase
  | CONSTRUCTION
  | SNEAKY_TRICKS
  | DA_AUCTION
deriving DecidableEq, Repr

/-- Phase.value, the IntEnum integer value. -/
def Phase.val : Phase → Nat
  | .CONSTRUCTION => 0
  | .SNEAKY_TRICKS => 1
  | .DA_AUCTION => 2

/-- Phase lookup by IntEnum value (total on 0..2, the only values produced mod 3). -/
def Phase.ofVal (n : Nat) : Phase :=
  if n = 0 then .CONSTRUCTION else if n = 1 then .SNEAKY_TRICKS else .DA_AUCTION

/-- Phase.get_next from models/game_state.py: Phase((value + 1) mod len(Phase)). -/
def Phase.get_next (p : Phase) : Phase := Phase.ofVal ((p.val + 1) % 3)

/-- Modelled from the spec: GameSettings (models/game_settings.py is not in src/);
the spec lists at minimum these configuration fields. -/
structure GameSettings where
  n_buses : Nat
  initial_funds : Rat
  n_init_ice_cream : Nat
  n_init_assets : Nat
  min_bid_price : Rat
  max_bid_price : Rat
  map_area : Rat
deriving DecidableEq, Repr

/-- Modelled from the spec: MarketCouplingResult (models/market_coupling_result.py
is not in src/). Three single-snapshot tables: bus prices, signed line flows and
absolute asset dispatch, each total over the respective ids (row index 0). -/
structure MarketCouplingResult where
  bus_prices : BusId → Rat
  transmission_flows : TransmissionId → Rat
  assets_dispatch : AssetId → Rat

/-- GameState from models/game_state.py. -/
structure GameState where
  game_id : GameId
  game_settings : GameSettings
  phase : Phase
  players : List Player
  buses : List Bus
  assets : List AssetInfo
  transmission : List TransmissionInfo
  market_coupling_result : Option MarketCouplingResult
  round : Int := 1

/-- Field-targeted update of the row with index `i` on a repo with unique index
(pandas `df.loc[i, col] = v` followed by update_frame): rewrite the record whose
id matches, leave every other record alone. -/
def Repo.updateById (getId : α → Int) (f : α → α) (i : Int) (repo : List α) : List α :=
  repo.map fun a => if getId a == i then f a else a

/-- Indexed lookup `repo[i]`; `none` is python's KeyError on a missing id. -/
def Repo.findById (getId : α → Int) (repo : List α) (i : Int) : Option α :=
  repo.find? fun a => getId a == i

/-- AssetRepo.asset_ids from models/assets.py. -/
def AssetRepo.asset_ids (repo : List AssetInfo) : List AssetId := repo.map (·.id)

/-- AssetRepo indexed lookup. -/
def AssetRepo.findById (repo : List AssetInfo) (i : AssetId) : Option AssetInfo :=
  Repo.findById (·.id) repo i

/-- AssetRepo.only_freezers from models/assets.py. -/
def AssetRepo.only_freezers (repo : List AssetInfo) : List AssetInfo :=
  repo.filter (·.is_freezer)

/-- AssetRepo.only_loads from models/assets.py. -/
def AssetRepo.only_loads (repo : List AssetInfo) : List AssetInfo :=
  repo.filter fun a => a.asset_type = AssetType.LOAD

/-- AssetRepo.get_all_for_player from models/assets.py. -/
def AssetRepo.get_all_for_player (repo : List AssetInfo) (player_id : PlayerId)
    (only_active : Bool) : List AssetInfo :=
  repo.filter fun a => a.owner_player == player_id && (!only_active || a.is_active)

/-- AssetRepo.update_bid_price from models/assets.py. -/
def AssetRepo.update_bid_price (repo : List AssetInfo) (asset_id : AssetId) (bid_price : Rat) :
    List AssetInfo :=
  Repo.updateById (·.id) (fun a => {a with bid_price := bid_price}) asset_id repo

/-- AssetRepo.change_owner from models/assets.py: also clears is_for_sale. -/
def AssetRepo.change_owner (repo : List AssetInfo) (asset_id : AssetId) (new_owner : PlayerId) :
    List AssetInfo :=
  Repo.updateById (·.id) (fun a => {a with owner_player := new_owner, is_for_sale := false})
    asset_id repo

/-- Row transformation of AssetRepo._decrease_health from models/assets.py:
health > 1 loses one point, otherwise health is set to 0 and the asset deactivated. -/
def AssetInfo.decreased (a : AssetInfo) : AssetInfo :=
  if a.health > 1 then {a with health := a.health - 1}
  else {a with health := 0, is_active := false}

/-- AssetRepo._decrease_health from models/assets.py. -/
def AssetRepo._decrease_health (repo : List AssetInfo) (asset_id : AssetId) : List AssetInfo :=
  Repo.updateById (·.id) AssetInfo.decreased asset_id repo

/-- AssetRepo.melt_ice_cream from models/assets.py (the is_freezer assert holds at
every call site: the referee only melts freezers). -/
def AssetRepo.melt_ice_cream (repo : List AssetInfo) (asset_id : AssetId) : List AssetInfo :=
  AssetRepo._decrease_health repo asset_id

/-- AssetRepo.wear_asset from models/assets.py. -/
def AssetRepo.wear_asset (repo : List AssetInfo) (asset_id : AssetId) : List AssetInfo :=
  AssetRepo._decrease_health repo asset_id

/-- Modelled from the spec: AssetRepo.batch_deactivate (called from
referee.deactivate_loads_of_players_in_debt; the method is not in src/):
set is_active = false on every asset whose id is listed. -/
def AssetRepo.batch_deactivate (repo : List AssetInfo) (ids : List AssetId) : List AssetInfo :=
  repo.map fun a => if ids.contains a.id then {a with is_active := false} else a

/-- repo[asset_id].owner_player for an id known to be present (0 is an
unreachable default for the KeyError case). -/
def AssetRepo.owner_of (repo : List AssetInfo) (i : AssetId) : PlayerId :=
  match AssetRepo.findById repo i with
  | some a => a.owner_player
  | none => 0

/-- PlayerRepo.player_ids from models/player.py. -/
def PlayerRepo.player_ids (repo : List Player) : List PlayerId := repo.map (·.id)

/-- PlayerRepo indexed lookup. -/
def PlayerRepo.findById (repo : List Player) (i : PlayerId) : Option Player :=
  Repo.findById (·.id) repo i

/-- PlayerRepo.human_player_ids from models/player.py: every id except the NPC. -/
def PlayerRepo.human_player_ids (repo : List Player) : List PlayerId :=
  (PlayerRepo.player_ids repo).filter fun p => p != PlayerId.get_npc

/-- PlayerRepo.human_players from models/player.py: the players at the human ids. -/
def PlayerRepo.human_players (repo : List Player) : List Player :=
  (PlayerRepo.human_player_ids repo).filterMap (PlayerRepo.findById repo)

/-- PlayerRepo.get_currently_playing from models/player.py. -/
def PlayerRepo.get_currently_playing (repo : List Player) : List Player :=
  repo.filter (·.is_having_turn)

/-- PlayerRepo.are_all_players_finished from models/player.py. -/
def PlayerRepo.are_all_players_finished (repo : List Player) : Bool :=
  (PlayerRepo.get_currently_playing repo).length == 0

/-- PlayerRepo.add_money from models/player.py. -/
def PlayerRepo.add_money (repo : List Player) (player_id : PlayerId) (amount : Rat) :
    List Player :=
  Repo.updateById (·.id) (fun p => {p with money := p.money + amount}) player_id repo

/-- PlayerRepo.subtract_money from models/player.py. -/
def PlayerRepo.subtract_money (repo : List Player) (player_id : PlayerId) (amount : Rat) :
    List Player :=
  Repo.updateById (·.id) (fun p => {p with money := p.money - amount}) player_id repo

/-- PlayerRepo.end_turn from models/player.py. -/
def PlayerRepo.end_turn (repo : List Player) (player_id : PlayerId) : List Player :=
  Repo.updateById (·.id) (fun p => {p with is_having_turn := false}) player_id repo

/-- PlayerRepo.start_all_turns from models/player.py: set the turn flag on every
row whose index is a human player id. -/
def PlayerRepo.start_all_turns (repo : List Player) : List Player :=
  repo.map fun p =>
    if (PlayerRepo.human_player_ids repo).contains p.id then {p with is_having_turn := true}
    else p

/-- TransmissionRepo.transmission_ids from models/transmission.py. -/
def TransmissionRepo.transmission_ids (repo : List TransmissionInfo) : List TransmissionId :=
  repo.map (·.id)

/-- TransmissionRepo indexed lookup. -/
def TransmissionRepo.findById (repo : List TransmissionInfo) (i : TransmissionId) :
    Option TransmissionInfo :=
  Repo.findById (·.id) repo i

/-- TransmissionRepo.get_all_for_player from models/transmission.py. -/
def TransmissionRepo.get_all_for_player (repo : List TransmissionInfo) (player_id : PlayerId)
    (only_active : Bool) : List TransmissionInfo :=
  repo.filter fun t => t.owner_player == player_id && (!only_active || t.is_active)

/-- TransmissionRepo.open_line from models/transmission.py. -/
def TransmissionRepo.open_line (repo : List TransmissionInfo) (i : TransmissionId) :
    List TransmissionInfo :=
  Repo.updateById (·.id) (fun t => {t with is_active := false}) i repo

/-- TransmissionRepo.close_line from models/transmission.py. -/
def TransmissionRepo.close_line (repo : List TransmissionInfo) (i : TransmissionId) :
    List TransmissionInfo :=
  Repo.updateById (·.id) (fun t => {t with is_active := true}) i repo

/-- TransmissionRepo.change_owner from models/transmission.py. -/
def TransmissionRepo.change_owner (repo : List TransmissionInfo) (i : TransmissionId)
    (new_owner : PlayerId) : List TransmissionInfo :=
  Repo.updateById (·.id) (fun t => {t with owner_player := new_owner, is_for_sale := false})
    i repo

/-- Modelled from the spec: the row transformation of TransmissionRepo.wear_transmission
(the method is not in src/; the spec says decrement health by 1, clamped at 0, and set
is_active = false when reaching 0, mirroring AssetRepo._decrease_health). -/
def TransmissionInfo.decreased (t : TransmissionInfo) : TransmissionInfo :=
  if t.health > 1 then {t with health := t.health - 1}
  else {t with health := 0, is_active := false}

/-- Modelled from the spec: TransmissionRepo.wear_transmission (not in src/; called by
referee.wear_congested_transmission). -/
def TransmissionRepo.wear_transmission (repo : List TransmissionInfo) (i : TransmissionId) :
    List TransmissionInfo :=
  Repo.updateById (·.id) TransmissionInfo.decreased i repo

/-- repo[i].owner_player for an id known to be present. -/
def TransmissionRepo.owner_of (repo : List TransmissionInfo) (i : TransmissionId) : PlayerId :=
  match TransmissionRepo.findById repo i with
  | some t => t.owner_player
  | none => 0

/-- np.isclose with the numpy defaults rtol = 1e-5, atol = 1e-8:
abs (a - b) <= atol + rtol * abs b. -/
def npIsClose (a b : Rat) : Bool :=
  decide (|a - b| ≤ 1 / 100000000 + (1 / 100000) * |b|)

/-- Literal open/close action of OperateLineRequest (models/message.py). -/
inductive LineAction
  | open_action
  | close_action
deriving DecidableEq, Repr

/-- Literal result field of OperateLineResponse (models/message.py). -/
inductive OpResult
  | success
  | no_change
  | failure
deriving DecidableEq, Repr

inductive PurchaseId
  | asset (id : AssetId)
  | transmission (id : TransmissionId)
deriving DecidableEq, Repr

/-- OperateLineRequest from models/message.py. -/
structure OperateLineRequest where
  player_id : PlayerId
  transmission_id : TransmissionId
  action : LineAction
deriving DecidableEq, Repr

/-- Inbound messages (models/message.py): player requests plus the internal
ConcludePhase. -/
inductive ToGameMessage
  | ConcludePhase (phase : Phase)
  | UpdateBidRequest (player_id : PlayerId) (asset_id : AssetId) (bid_price : Rat)
  | BuyRequest (player_id : PlayerId) (purchase_id : PurchaseId)
  | OperateLineRequestMsg (request : OperateLineRequest)
  | EndTurn (player_id : PlayerId)
deriving DecidableEq, Repr

/-- Outbound messages (models/message.py); the informational text is elided. -/
inductive FromGameMessage
  | ConcludePhase (phase : Phase)
  | UpdateBidResponse (player_id : PlayerId) (success : Bool) (asset_id : AssetId)
  | BuyResponse (player_id : PlayerId) (success : Bool) (purchase_id : PurchaseId)
  | OperateLineResponse (player_id : PlayerId) (request : OperateLineRequest) (result : OpResult)
  | AuctionClearedMessage (player_id : PlayerId)
  | IceCreamMeltedMessage (player_id : PlayerId) (asset_id : AssetId)
  | AssetWornMessage (player_id : PlayerId) (asset_id : AssetId)
  | TransmissionWornMessage (player_id : PlayerId) (transmission_id : TransmissionId)
  | LoadsDeactivatedMessage (player_id : PlayerId) (asset_ids : List AssetId)
deriving DecidableEq, Repr

/-- Destination player of an outbound message; none for the internal ConcludePhase. -/
def FromGameMessage.addressee : FromGameMessage → Option PlayerId
  | .ConcludePhase _ => none
  | .UpdateBidResponse p _ _ => some p
  | .BuyResponse p _ _ => some p
  | .OperateLineResponse p _ _ => some p
  | .AuctionClearedMessage p => some p
  | .IceCreamMeltedMessage p _ => some p
  | .AssetWornMessage p _ => some p
  | .TransmissionWornMessage p _ => some p
  | .LoadsDeactivatedMessage p _ => some p

/-- FinanceCalculator.compute_assets_cashflow (src/engine/finance.py): one pass
accumulating operating_cost and market_cashflow, returning their difference. -/
def FinanceCalculator.compute_assets_cashflow (assets : List AssetInfo)
    (assets_dispatch : AssetId → Rat) : Rat :=
  let z := assets.foldl
    (fun acc asset =>
      (acc.1 + (|assets_dispatch asset.id| * asset.marginal_cost + asset.fixed_operating_cost),
       acc.2 + assets_dispatch asset.id * asset.bid_price))
    ((0 : Rat), (0 : Rat))
  z.2 - z.1

/-- FinanceCalculator.compute_transmission_cashflow (src/engine/finance.py). -/
def FinanceCalculator.compute_transmission_cashflow (transmission_repo : List TransmissionInfo)
    (transmission_flows : TransmissionId → Rat) (bus_prices : BusId → Rat) : Rat :=
  transmission_repo.foldl
    (fun acc line =>
      acc + transmission_flows line.id * (bus_prices line.bus1 - bus_prices line.bus2))
    0

/-- FinanceCalculator.compute_cashflows_after_power_delivery (src/engine/finance.py):
per player, asset cashflow over their active assets plus congestion rent over their
active lines, in player order. -/
def FinanceCalculator.compute_cashflows_after_power_delivery (game_state : GameState)
    (m : MarketCouplingResult) : List (PlayerId × Rat) :=
  game_state.players.map fun player =>
    (player.id,
      FinanceCalculator.compute_assets_cashflow
        (AssetRepo.get_all_for_player game_state.assets player.id true) m.assets_dispatch
      + FinanceCalculator.compute_transmission_cashflow
        (TransmissionRepo.get_all_for_player game_state.transmission player.id true)
        m.transmission_flows m.bus_prices)

/-- FinanceCalculator.validate_bid_for_asset (back_end/src/engine/finance.py, the
definition the engine's call resolves to): hypothetical expected market cashflow with
the new bid overriding the named asset; true iff player_money plus it is nonnegative. -/
def FinanceCalculator.validate_bid_for_asset (player_assets : List AssetInfo)
    (asset_id_to_validate : AssetId) (bid_to_validate : Rat) (player_money : Rat) : Bool :=
  let expected_market_cashflow := player_assets.foldl
    (fun acc asset =>
      let expected_volume := asset.power_expected
      let bid_price := if asset.id == asset_id_to_validate then bid_to_validate
                       else asset.bid_price
      acc + (asset.cashflow_sign : Rat) * bid_price * expected_volume)
    0
  decide (player_money + expected_market_cashflow ≥ 0)

/-- Shared shape of the referee book-keeping loops in engine/referee.py
(melt_ice_creams, wear_congested_transmission, wear_non_freezer_assets): walk a
snapshot list and, for every item whose guard holds, apply the per-id repo update
and record the id, in order. -/
def decayLoop (hit : α → Bool) (getId : α → Int) (step : List β → Int → List β) :
    List α → List β → List Int → List β × List Int
  | [], repo, ids => (repo, ids)
  | x :: xs, repo, ids =>
    if hit x then decayLoop hit getId step xs (step repo (getId x)) (ids ++ [getId x])
    else decayLoop hit getId step xs repo ids

/-- Referee.validate_purchase (engine/referee.py, identical in both referee files):
non-empty failure list when the purchase does not exist, is not for sale, or the
player cannot afford it; none is the KeyError on a missing player. -/
def Referee.validate_purchase (gs : GameState) (player_id : PlayerId)
    (purchase_id : PurchaseId) : Option (List FromGameMessage) :=
  match PlayerRepo.findById gs.players player_id with
  | none => none
  | some player =>
    let make_failed := [FromGameMessage.BuyResponse player_id false purchase_id]
    match purchase_id with
    | .asset i =>
      match AssetRepo.findById gs.assets i with
      | none => some make_failed
      | some purchase_obj =>
        if !purchase_obj.is_for_sale then some make_failed
        else if player.money < purchase_obj.minimum_acquisition_price then some make_failed
        else some []
    | .transmission i =>
      match TransmissionRepo.findById gs.transmission i with
      | none => some make_failed
      | some purchase_obj =>
        if !purchase_obj.is_for_sale then some make_failed
        else if player.money < purchase_obj.minimum_acquisition_price then some make_failed
        else some []

/-- Referee.deactivate_loads_of_players_in_debt (engine/referee.py): every human
with negative money has all their loads deactivated; one message per such player
naming the affected load ids (batch_deactivate is spec-modelled, see above). -/
def Referee.deactivate_loads_of_players_in_debt (gs : GameState) :
    GameState × List FromGameMessage :=
  let debtors := (PlayerRepo.human_players gs.players).filter fun p => !decide (p.money ≥ 0)
  let load_ids := fun (p : Player) =>
    AssetRepo.asset_ids (AssetRepo.only_loads (AssetRepo.get_all_for_player gs.assets p.id false))
  let ids_to_deactivate := debtors.foldl (fun acc p => acc ++ load_ids p) []
  let msgs := debtors.map fun p => FromGameMessage.LoadsDeactivatedMessage p.id (load_ids p)
  ({gs with assets := AssetRepo.batch_deactivate gs.assets ids_to_deactivate}, msgs)

/-- Referee.melt_ice_creams (back_end/src/engine/referee.py, the canonical
zero-dispatch variant per the spec): every freezer with health > 0 whose dispatch
at snapshot 0 equals exactly 0 loses one health point (deactivated at 0); one
melted message per affected freezer addressed to its owner. -/
def Referee.melt_ice_creams (gs : GameState) : Option (GameState × List FromGameMessage) :=
  match gs.market_coupling_result with
  | none => none
  | some m =>
    let ice_cream_loads := AssetRepo.only_freezers gs.assets
    let hit := fun (load : AssetInfo) => !(load.health == 0) && (m.assets_dispatch load.id == 0)
    let r := decayLoop hit (fun a => a.id) AssetRepo.melt_ice_cream ice_cream_loads gs.assets []
    let new_gs := {gs with assets := r.1}
    some (new_gs,
      r.2.map fun i => FromGameMessage.IceCreamMeltedMessage (AssetRepo.owner_of new_gs.assets i) i)

/-- RefereeSrc.melt_ice_creams (src/src/engine/referee.py, the variant the engine's
DA pipeline imports): same loop but the guard melts whenever dispatch is strictly
below power_expected. -/
def RefereeSrc.melt_ice_creams (gs : GameState) : Option (GameState × List FromGameMessage) :=
  match gs.market_coupling_result with
  | none => none
  | some m =>
    let ice_cream_loads := AssetRepo.only_freezers gs.assets
    let hit := fun (load : AssetInfo) =>
      !(load.health == 0) && decide (m.assets_dispatch load.id < load.power_expected)
    let r := decayLoop hit (fun a => a.id) AssetRepo.melt_ice_cream ice_cream_loads gs.assets []
    let new_gs := {gs with assets := r.1}
    some (new_gs,
      r.2.map fun i => FromGameMessage.IceCreamMeltedMessage (AssetRepo.owner_of new_gs.assets i) i)

/-- Referee.wear_congested_transmission (engine/referee.py, same behaviour in both
referee files): every line with health > 0 whose signed flow is np.isclose to its
capacity is worn once; one worn message per affected line. -/
def Referee.wear_congested_transmission (gs : GameState) :
    Option (GameState × List FromGameMessage) :=
  match gs.market_coupling_result with
  | none => none
  | some m =>
    let hit := fun (t : TransmissionInfo) =>
      !(t.health == 0) && npIsClose t.capacity (m.transmission_flows t.id)
    let r := decayLoop hit (fun t => t.id) TransmissionRepo.wear_transmission
      gs.transmission gs.transmission []
    let new_gs := {gs with transmission := r.1}
    some (new_gs,
      r.2.map fun i =>
        FromGameMessage.TransmissionWornMessage (TransmissionRepo.owner_of new_gs.transmission i) i)

/-- Referee.wear_non_freezer_assets (engine/referee.py): every non-freezer asset
with health > 0 is worn once; one worn message per affected asset. -/
def Referee.wear_non_freezer_assets (gs : GameState) : GameState × List FromGameMessage :=
  let wearable_assets := gs.assets.filter fun a => !a.is_freezer
  let r := decayLoop (fun a => !(a.health == 0)) (fun a => a.id) AssetRepo.wear_asset
    wearable_assets gs.assets []
  let new_gs := {gs with assets := r.1}
  (new_gs, r.2.map fun i => FromGameMessage.AssetWornMessage (AssetRepo.owner_of new_gs.assets i) i)

/-- Engine._validate_update_bid (src/engine/engine.py): asset must exist, the
caller must exist and own it, the bid must lie in the settings range, and the
finance liquidity check runs last: when validate_bid_for_asset returns true the
source returns a cannot-afford failure (note the guard is not negated in the
source). -/
def Engine._validate_update_bid (gs : GameState) (player_id : PlayerId) (asset_id : AssetId)
    (bid_price : Rat) : Option (List FromGameMessage) :=
  let make_failed := [FromGameMessage.UpdateBidResponse player_id false asset_id]
  if !(AssetRepo.asset_ids gs.assets).contains asset_id then some make_failed
  else
    match PlayerRepo.findById gs.players player_id, AssetRepo.findById gs.assets asset_id with
    | some player, some asset =>
      let player_assets := AssetRepo.get_all_for_player gs.assets player.id true
      let min_bid := gs.game_settings.min_bid_price
      let max_bid := gs.game_settings.max_bid_price
      if player.id != asset.owner_player then some make_failed
      else if !(decide (min_bid ≤ bid_price) && decide (bid_price ≤ max_bid)) then
        some make_failed
      else if FinanceCalculator.validate_bid_for_asset player_assets asset_id bid_price
          player.money then
        some make_failed
      else some []
    | _, _ => none

/-- Engine.handle_update_bid_message (src/engine/engine.py). -/
def Engine.handle_update_bid_message (gs : GameState) (player_id : PlayerId)
    (asset_id : AssetId) (bid_price : Rat) : Option (GameState × List FromGameMessage) :=
  match Engine._validate_update_bid gs player_id asset_id bid_price with
  | none => none
  | some fails =>
    if fails.isEmpty then
      let new_assets := AssetRepo.update_bid_price gs.assets asset_id bid_price
      some ({gs with assets := new_assets},
        [FromGameMessage.UpdateBidResponse player_id true asset_id])
    else some (gs, fails)

/-- Engine.handle_buy_asset_message (src/engine/engine.py). -/
def Engine.handle_buy_asset_message (gs : GameState) (player_id : PlayerId)
    (purchase_id : AssetId) : Option (GameState × List FromGameMessage) :=
  match Referee.validate_purchase gs player_id (.asset purchase_id) with
  | none => none
  | some fails =>
    if fails.isEmpty then
      match AssetRepo.findById gs.assets purchase_id with
      | none => none
      | some asset =>
        let new_players :=
          PlayerRepo.subtract_money gs.players player_id asset.minimum_acquisition_price
        let new_assets := AssetRepo.change_owner gs.assets asset.id player_id
        some ({gs with players := new_players, assets := new_assets},
          [FromGameMessage.BuyResponse player_id true (.asset asset.id)])
    else some (gs, fails)

/-- Engine.handle_buy_transmission_message (src/engine/engine.py). -/
def Engine.handle_buy_transmission_message (gs : GameState) (player_id : PlayerId)
    (purchase_id : TransmissionId) : Option (GameState × List FromGameMessage) :=
  match Referee.validate_purchase gs player_id (.transmission purchase_id) with
  | none => none
  | some fails =>
    if fails.isEmpty then
      match TransmissionRepo.findById gs.transmission purchase_id with
      | none => none
      | some transmission =>
        let new_players :=
          PlayerRepo.subtract_money gs.players player_id transmission.minimum_acquisition_price
        let new_transmission :=
          TransmissionRepo.change_owner gs.transmission transmission.id player_id
        some ({gs with players := new_players, transmission := new_transmission},
          [FromGameMessage.BuyResponse player_id true (.transmission transmission.id)])
    else some (gs, fails)

/-- Engine.handle_operate_line_message (src/engine/engine.py): failure for a missing
line or a non-owner; no_change when opening an open line or closing a closed one;
otherwise the line is toggled. -/
def Engine.handle_operate_line_message (gs : GameState) (msg : OperateLineRequest) :
    GameState × List FromGameMessage :=
  let make_response := fun (result : OpResult) (new_gs : GameState) =>
    (new_gs, [FromGameMessage.OperateLineResponse msg.player_id msg result])
  if !(TransmissionRepo.transmission_ids gs.transmission).contains msg.transmission_id then
    make_response .failure gs
  else
    match TransmissionRepo.findById gs.transmission msg.transmission_id with
    | none => make_response .failure gs
    | some line =>
      if line.owner_player != msg.player_id then make_response .failure gs
      else
        match msg.action with
        | .open_action =>
          if line.is_open then make_response .no_change gs
          else make_response .success
            {gs with transmission := TransmissionRepo.open_line gs.transmission line.id}
        | .close_action =>
          if line.is_closed then make_response .no_change gs
          else make_response .success
            {gs with transmission := TransmissionRepo.close_line gs.transmission line.id}

/-- Engine.handle_end_turn_message (src/engine/engine.py): clear the caller's turn
flag; when nobody is left playing emit the internal ConcludePhase. -/
def Engine.handle_end_turn_message (gs : GameState) (player_id : PlayerId) :
    GameState × List FromGameMessage :=
  let gs2 := {gs with players := PlayerRepo.end_turn gs.players player_id}
  if PlayerRepo.are_all_players_finished gs2.players then
    (gs2, [FromGameMessage.ConcludePhase gs2.phase])
  else (gs2, [])

/-- Engine._update_game_state_with_market_coupling_result (src/engine/engine.py):
apply every player's net cashflow and store the market result; one
AuctionClearedMessage per player id in the repo (the NPC included). -/
def Engine._update_game_state_with_market_coupling_result (gs : GameState)
    (m : MarketCouplingResult) : GameState × List FromGameMessage :=
  let cashflows := FinanceCalculator.compute_cashflows_after_power_delivery gs m
  let player_repo := cashflows.foldl (fun repo pc => PlayerRepo.add_money repo pc.1 pc.2)
    gs.players
  let new_gs := {gs with players := player_repo, market_coupling_result := some m}
  (new_gs, (PlayerRepo.player_ids new_gs.players).map fun pid =>
    FromGameMessage.AuctionClearedMessage pid)

/-- Engine._apply_rules_after_market_coupling (src/engine/engine.py): melt, then
wear congested transmission, then wear non-freezer assets, accumulating messages. -/
def Engine._apply_rules_after_market_coupling (gs : GameState) :
    Option (GameState × List FromGameMessage) :=
  match RefereeSrc.melt_ice_creams gs with
  | none => none
  | some (gs1, ice_cream_msgs) =>
    match Referee.wear_congested_transmission gs1 with
    | none => none
    | some (gs2, transmission_msgs) =>
      let r := Referee.wear_non_freezer_assets gs2
      some (r.1, ice_cream_msgs ++ transmission_msgs ++ r.2)

/-- Engine._process_construction_phase (src/engine/engine.py): no bookkeeping. -/
def Engine._process_construction_phase (gs : GameState) : GameState × List FromGameMessage :=
  (gs, [])

/-- Engine._process_sneaky_tricks_phase (src/engine/engine.py): no bookkeeping. -/
def Engine._process_sneaky_tricks_phase (gs : GameState) : GameState × List FromGameMessage :=
  (gs, [])

/-- Engine._process_day_ahead_auction_phase (src/engine/engine.py): deactivate
debtor loads, clear the market (the solver is the oracle argument), settle
cashflows, then apply the post-clearing referee rules. As in the source, the
AuctionClearedMessages returned by the settlement step are dropped: only the
deactivation and referee messages are accumulated. -/
def Engine._process_day_ahead_auction_phase (mcc : GameState → MarketCouplingResult)
    (gs : GameState) : Option (GameState × List FromGameMessage) :=
  let d := Referee.deactivate_loads_of_players_in_debt gs
  let market_result := mcc d.1
  let u := Engine._update_game_state_with_market_coupling_result d.1 market_result
  match Engine._apply_rules_after_market_coupling u.1 with
  | none => none
  | some (gs3, msgs3) => some (gs3, d.2 ++ msgs3)

/-- Engine.handle_new_phase_message (src/engine/engine.py): run the concluded
phase's bookkeeping, then advance the phase, restart all human turns, and
increment the round exactly when the next phase wraps to value 0. -/
def Engine.handle_new_phase_message (mcc : GameState → MarketCouplingResult)
    (gs : GameState) (msg_phase : Phase) : Option (GameState × List FromGameMessage) :=
  let step : Option (GameState × List FromGameMessage) :=
    match msg_phase with
    | .CONSTRUCTION => some (Engine._process_construction_phase gs)
    | .DA_AUCTION => Engine._process_day_ahead_auction_phase mcc gs
    | .SNEAKY_TRICKS => some (Engine._process_sneaky_tricks_phase gs)
  match step with
  | none => none
  | some (new_gs, msgs) =>
    some ({new_gs with
            phase := new_gs.phase.get_next,
            players := PlayerRepo.start_all_turns new_gs.players,
            round := if new_gs.phase.get_next.val == 0 then new_gs.round + 1 else new_gs.round},
          msgs)

/-- Engine.handle_message (src/engine/engine.py): the single dispatcher. -/
def Engine.handle_message (mcc : GameState → MarketCouplingResult) (gs : GameState)
    (msg : ToGameMessage) : Option (GameState × List FromGameMessage) :=
  match msg with
  | .ConcludePhase phase => Engine.handle_new_phase_message mcc gs phase
  | .UpdateBidRequest player_id asset_id bid_price =>
    Engine.handle_update_bid_message gs player_id asset_id bid_price
  | .OperateLineRequestMsg request => some (Engine.handle_operate_line_message gs request)
  | .BuyRequest player_id (.asset i) => Engine.handle_buy_asset_message gs player_id i
  | .BuyRequest player_id (.transmission i) =>
    Engine.handle_buy_transmission_message gs player_id i
  | .EndTurn player_id => some (Engine.handle_end_turn_message gs player_id)

/-- Guard of the canonical (zero-dispatch) melt loop. -/
def meltHitZero (m : MarketCouplingResult) (load : AssetInfo) : Bool :=
  !(load.health == 0) && (m.assets_dispatch load.id == 0)

/-- Freezer rows melted by the canonical melt loop. -/
def meltedZero (gs : GameState) (m : MarketCouplingResult) : List AssetInfo :=
  (gs.assets.filter fun a => a.is_freezer).filter (meltHitZero m)

/-- Lines worn by wear_congested_transmission: health > 0 and signed flow
np.isclose to capacity. -/
def wornLines (gs : GameState) (m : MarketCouplingResult) : List TransmissionInfo :=
  gs.transmission.filter fun t => !(t.health == 0) && npIsClose t.capacity (m.transmission_flows t.id)

/-- A concrete world used to instantiate the claim theorems: an NPC, two humans,
a freezer, two generators and two lines, plus a cleared market with one line at
capacity with positive flow and one at capacity with negative flow. -/
def Ex.settings : GameSettings :=
  { n_buses := 2, initial_funds := 100, n_init_ice_cream := 3, n_init_assets := 1,
    min_bid_price := 0, max_bid_price := 1000, map_area := 100 }

def Ex.npc : Player :=
  { id := -1, name := "NPC", color := "black", money := 0, is_having_turn := false }

def Ex.alice : Player :=
  { id := 1, name := "Alice", color := "red", money := 100, is_having_turn := true }

def Ex.bob : Player :=
  { id := 2, name := "Bob", color := "blue", money := 5, is_having_turn := true }

def Ex.freezerA : AssetInfo :=
  { id := 10, owner_player := 1, asset_type := .LOAD, bus := 1, power_expected := 10,
    power_std := 0, bid_price := 1, is_freezer := true, health := 3 }

def Ex.genNpc : AssetInfo :=
  { id := 11, owner_player := -1, asset_type := .GENERATOR, bus := 2, power_expected := 5,
    power_std := 0, is_for_sale := true, minimum_acquisition_price := 50, bid_price := 3,
    health := 2 }

def Ex.genBob : AssetInfo :=
  { id := 12, owner_player := 2, asset_type := .GENERATOR, bus := 2, power_expected := 4,
    power_std := 0, bid_price := 2, health := 1 }

def Ex.line1 : TransmissionInfo :=
  { id := 20, owner_player := 1, bus1 := 1, bus2 := 2, reactance := 1, capacity := 5,
    health := 2, is_for_sale := true, minimum_acquisition_price := 30 }

def Ex.line2 : TransmissionInfo :=
  { id := 21, owner_player := -1, bus1 := 1, bus2 := 2, reactance := 1, capacity := 5,
    health := 1 }

def Ex.bus1 : Bus := { id := 1, x := 0, y := 0, player_id := 1 }

def Ex.bus2 : Bus := { id := 2, x := 1, y := 0 }

def Ex.m : MarketCouplingResult :=
  { bus_prices := fun _ => 2,
    transmission_flows := fun i => if i = 20 then 5 else -5,
    assets_dispatch := fun i => if i = 11 then 5 else 0 }

def Ex.gs : GameState :=
  { game_id := 1, game_settings := Ex.settings, phase := Phase.DA_AUCTION,
    players := [Ex.npc, Ex.alice, Ex.bob], buses := [Ex.bus1, Ex.bus2],
    assets := [Ex.freezerA, Ex.genNpc, Ex.genBob],
    transmission := [Ex.line1, Ex.line2],
    market_coupling_result := some Ex.m, round := 1 }

/-- The state melt_ice_creams produces on Ex.gs: the freezer loses one health point. -/
def Ex.meltedState : GameState :=
  {Ex.gs with assets := [{Ex.freezerA with health := 2}, Ex.genNpc, Ex.genBob]}

def Ex.meltMsgs : List FromGameMessage := [.IceCreamMeltedMessage 1 10]

/-- The state wear_congested_transmission produces on Ex.gs: line 20 (flow +5 at
capacity 5) is worn; line 21 (flow -5) is untouched. -/
def Ex.wornState : GameState :=
  {Ex.gs with transmission := [{Ex.line1 with health := 1}, Ex.line2]}

def Ex.wornMsgs : List FromGameMessage := [.TransmissionWornMessage 1 20]

/-- The all-zero solver oracle used by the concrete scenarios. -/
def Oracle.zero : GameState → MarketCouplingResult := fun _ =>
  { bus_prices := fun _ => 0, transmission_flows := fun _ => 0, assets_dispatch := fun _ => 0 }

/-- The state the engine produces when Alice buys the for-sale NPC generator. -/
def Ex.boughtState : GameState :=
  {Ex.gs with
    players := [Ex.npc, {Ex.alice with money := 50}, Ex.bob],
    assets := [Ex.freezerA, {Ex.genNpc with owner_player := 1, is_for_sale := false}, Ex.genBob]}

def Ex.closeReq : OperateLineRequest :=
  { player_id := 1, transmission_id := 20, action := LineAction.close_action }

/-- A ToGameMessage that comes from a player (everything except ConcludePhase). -/
def ToGameMessage.is_player_request : ToGameMessage → Prop
  | .ConcludePhase _ => False
  | _ => True

/-- The state the engine produces when Bob ends his turn (Alice still plays on). -/
def Ex.endTurnState : GameState :=
  {Ex.gs with players := [Ex.npc, Ex.alice, {Ex.bob with is_having_turn := false}]}

/-- The health-activity coupling the spec claims after wear and melt. -/
def healthActiveInv (gs : GameState) : Prop :=
  (∀ a ∈ gs.assets, a.health = 0 ↔ a.is_active = false)
  ∧ (∀ t ∈ gs.transmission, t.health = 0 ↔ t.is_active = false)

/-- An inactive generator with two health points, as debt deactivation produces. -/
def Ex7.gen : AssetInfo :=
  { id := 30, owner_player := 1, asset_type := .GENERATOR, bus := 1, power_expected := 5,
    power_std := 0, health := 2, is_active := false }

def Ex7.gs : GameState :=
  { game_id := 2, game_settings := Ex.settings, phase := Phase.DA_AUCTION,
    players := [Ex.npc, Ex.alice], buses := [Ex.bus1], assets := [Ex7.gen],
    transmission := [], market_coupling_result := some Ex.m, round := 1 }

def Ex.gsCon : GameState := {Ex.gs with phase := Phase.CONSTRUCTION}

/-- The state produced by concluding CONSTRUCTION on Ex.gsCon. -/
def Ex.conNext : GameState := {Ex.gsCon with phase := Phase.SNEAKY_TRICKS}

theorem decayLoop_snd (hit : α → Bool) (getId : α → Int) (step : List β → Int → List β) :
    ∀ (xs : List α) (repo : List β) (ids : List Int),
      (decayLoop hit getId step xs repo ids).2 = ids ++ (xs.filter hit).map getId := by
  intro xs
  induction xs with
  | nil => intro repo ids; simp [decayLoop]
  | cons x xs ih =>
    intro repo ids
    cases hx : hit x <;> simp [decayLoop, hx, ih, List.filter_cons]

theorem decayLoop_fst (hit : α → Bool) (getId : α → Int) (step : List β → Int → List β) :
    ∀ (xs : List α) (repo : List β) (ids : List Int),
      (decayLoop hit getId step xs repo ids).1
        = List.foldl step repo ((xs.filter hit).map getId) := by
  intro xs
  induction xs with
  | nil => intro repo ids; simp [decayLoop]
  | cons x xs ih =>
    intro repo ids
    cases hx : hit x <;> simp [decayLoop, hx, ih, List.filter_cons]

theorem foldl_updateById_eq_map (getId : α → Int) (f : α → α)
    (hf : ∀ a, getId (f a) = getId a) :
    ∀ (ids : List Int), ids.Nodup → ∀ (repo : List α),
      List.foldl (fun r i => Repo.updateById getId f i r) repo ids
        = repo.map fun a => if getId a ∈ ids then f a else a := by
  intro ids
  induction ids with
  | nil =>
    intro _ repo
    simp
  | cons i ids ih =>
    intro hnd repo
    have hi : i ∉ ids := (List.nodup_cons.mp hnd).1
    have htl : ids.Nodup := (List.nodup_cons.mp hnd).2
    have hstep : List.foldl (fun r j => Repo.updateById getId f j r)
        (Repo.updateById getId f i repo) ids
        = (Repo.updateById getId f i repo).map fun a => if getId a ∈ ids then f a else a :=
      ih htl (Repo.updateById getId f i repo)
    have hcomp :
        ((fun a => if getId a ∈ ids then f a else a) ∘
          (fun a => if getId a == i then f a else a))
        = fun a => if getId a ∈ i :: ids then f a else a := by
      funext a
      by_cases hai : getId a = i
      · simp [Function.comp, hai, hf, hi]
      · simp [Function.comp, hai, List.mem_cons]
    calc List.foldl (fun r j => Repo.updateById getId f j r) repo (i :: ids)
        = (Repo.updateById getId f i repo).map (fun a => if getId a ∈ ids then f a else a) := by
          simpa using hstep
      _ = repo.map ((fun a => if getId a ∈ ids then f a else a) ∘
            (fun a => if getId a == i then f a else a)) := by
          simp [Repo.updateById, List.map_map]
      _ = repo.map fun a => if getId a ∈ i :: ids then f a else a := by rw [hcomp]

theorem findById_map (getId : α → Int) (f : α → α) (hf : ∀ a, getId (f a) = getId a)
    (repo : List α) (i : Int) :
    Repo.findById getId (repo.map f) i = (Repo.findById getId repo i).map f := by
  induction repo with
  | nil => simp [Repo.findById]
  | cons a repo ih =>
    simp only [Repo.findById, List.map_cons, List.find?_cons] at *
    cases ha : getId a == i
    · simpa [hf, ha] using ih
    · simp [hf, ha]

theorem findById_some_id (getId : α → Int) (repo : List α) (i : Int) (a : α)
    (h : Repo.findById getId repo i = some a) : getId a = i := by
  have := List.find?_some h
  simpa using this

theorem findById_mem (getId : α → Int) (repo : List α) (i : Int) (a : α)
    (h : Repo.findById getId repo i = some a) : a ∈ repo :=
  List.mem_of_find?_eq_some h

theorem findById_eq_of_mem (getId : α → Int) :
    ∀ (repo : List α), (repo.map getId).Nodup →
      ∀ a ∈ repo, Repo.findById getId repo (getId a) = some a := by
  intro repo
  induction repo with
  | nil => intro _ a ha; cases ha
  | cons b repo ih =>
    intro hnd a ha
    rw [List.map_cons] at hnd
    have hnI : getId b ∉ repo.map getId := (List.nodup_cons.mp hnd).1
    have htl : (repo.map getId).Nodup := (List.nodup_cons.mp hnd).2
    rcases List.mem_cons.mp ha with rfl | hmem
    · simp [Repo.findById, List.find?_cons]
    · have hne : getId b ≠ getId a := by
        intro hEq
        exact hnI (hEq ▸ List.mem_map_of_mem getId hmem)
      have : (getId b == getId a) = false := by
        simpa using hne
      simpa [Repo.findById, List.find?_cons, this] using ih htl a hmem

theorem getId_inj_of_nodup (getId : α → Int) (repo : List α)
    (hnd : (repo.map getId).Nodup) {a b : α} (ha : a ∈ repo) (hb : b ∈ repo)
    (h : getId a = getId b) : a = b := by
  have hfa := findById_eq_of_mem getId repo hnd a ha
  have hfb := findById_eq_of_mem getId repo hnd b hb
  rw [h] at hfa
  rw [hfa] at hfb
  exact (Option.some.injEq _ _ ▸ hfb).symm ▸ rfl

theorem mem_map_getId_sub_iff (getId : α → Int) (repo L : List α)
    (hnd : (repo.map getId).Nodup) (hsub : ∀ b ∈ L, b ∈ repo)
    (a : α) (ha : a ∈ repo) : getId a ∈ L.map getId ↔ a ∈ L := by
  constructor
  · intro h
    obtain ⟨b, hb, hgb⟩ := List.mem_map.mp h
    have : b = a := getId_inj_of_nodup getId repo hnd (hsub b hb) ha hgb
    exact this ▸ hb
  · intro h
    exact List.mem_map_of_mem getId h

theorem foldl_updateById_forall (getId : α → Int) (f : α → α) (P : α → Prop)
    (hP : ∀ a, P a → P (f a)) :
    ∀ (ids : List Int) (repo : List α), (∀ a ∈ repo, P a) →
      ∀ b ∈ List.foldl (fun r i => Repo.updateById getId f i r) repo ids, P b := by
  intro ids
  induction ids with
  | nil => intro repo h b hb; exact h b hb
  | cons i ids ih =>
    intro repo h b hb
    refine ih (Repo.updateById getId f i repo) ?_ b hb
    intro c hc
    obtain ⟨a, ha, rfl⟩ := List.mem_map.mp hc
    cases hai : getId a == i <;> simp [hai] <;> [exact h a ha; exact hP a (h a ha)]

theorem list_map_congr_mem {l : List α} {f g : α → β} (h : ∀ a ∈ l, f a = g a) :
    l.map f = l.map g := by
  induction l with
  | nil => rfl
  | cons a l ih =>
    simp [h a (List.mem_cons_self a l), ih fun b hb => h b (List.mem_cons_of_mem a hb)]

theorem AssetInfo.decreased_id (a : AssetInfo) : (AssetInfo.decreased a).id = a.id := by
  unfold AssetInfo.decreased; split <;> rfl

theorem AssetInfo.decreased_owner (a : AssetInfo) :
    (AssetInfo.decreased a).owner_player = a.owner_player := by
  unfold AssetInfo.decreased; split <;> rfl

theorem AssetInfo.decreased_freezer (a : AssetInfo) :
    (AssetInfo.decreased a).is_freezer = a.is_freezer := by
  unfold AssetInfo.decreased; split <;> rfl

theorem AssetInfo.decreased_health (a : AssetInfo) (h : a.health ≠ 0) :
    (AssetInfo.decreased a).health = a.health - 1 := by
  unfold AssetInfo.decreased; split <;> simp <;> omega

theorem AssetInfo.decreased_active_zero (a : AssetInfo)
    (h : (AssetInfo.decreased a).health = 0) : (AssetInfo.decreased a).is_active = false := by
  unfold AssetInfo.decreased at h ⊢
  by_cases hgt : a.health > 1
  · rw [if_pos hgt] at h
    simp at h
    omega
  · rw [if_neg hgt]

theorem AssetInfo.decreased_active_pos (a : AssetInfo)
    (h : (AssetInfo.decreased a).health ≠ 0) : (AssetInfo.decreased a).is_active = a.is_active := by
  unfold AssetInfo.decreased at h ⊢
  by_cases hgt : a.health > 1
  · rw [if_pos hgt]
  · rw [if_neg hgt] at h
    simp at h

theorem TransmissionInfo.tline_decreased_id (t : TransmissionInfo) :
    (TransmissionInfo.decreased t).id = t.id := by
  unfold TransmissionInfo.decreased; split <;> rfl

theorem TransmissionInfo.tline_decreased_owner (t : TransmissionInfo) :
    (TransmissionInfo.decreased t).owner_player = t.owner_player := by
  unfold TransmissionInfo.decreased; split <;> rfl

theorem TransmissionInfo.tline_decreased_health (t : TransmissionInfo) (h : t.health ≠ 0) :
    (TransmissionInfo.decreased t).health = t.health - 1 := by
  unfold TransmissionInfo.decreased; split <;> simp <;> omega

theorem TransmissionInfo.tline_decreased_active_zero (t : TransmissionInfo)
    (h : (TransmissionInfo.decreased t).health = 0) :
    (TransmissionInfo.decreased t).is_active = false := by
  unfold TransmissionInfo.decreased at h ⊢
  by_cases hgt : t.health > 1
  · rw [if_pos hgt] at h
    simp at h
    omega
  · rw [if_neg hgt]

theorem TransmissionInfo.tline_decreased_active_pos (t : TransmissionInfo)
    (h : (TransmissionInfo.decreased t).health ≠ 0) :
    (TransmissionInfo.decreased t).is_active = t.is_active := by
  unfold TransmissionInfo.decreased at h ⊢
  by_cases hgt : t.health > 1
  · rw [if_pos hgt]
  · rw [if_neg hgt] at h
    simp at h

theorem owner_of_asset_map (f : AssetInfo → AssetInfo) (hf : ∀ a, (f a).id = a.id)
    (hown : ∀ a, (f a).owner_player = a.owner_player) (repo : List AssetInfo)
    (hnd : (repo.map (·.id)).Nodup) (a : AssetInfo) (ha : a ∈ repo) :
    AssetRepo.owner_of (repo.map f) a.id = a.owner_player := by
  unfold AssetRepo.owner_of AssetRepo.findById
  have h1 : Repo.findById (fun x => x.id) (repo.map f) a.id
      = (Repo.findById (fun x => x.id) repo a.id).map f := findById_map _ f hf repo a.id
  have h2 : Repo.findById (fun x => x.id) repo a.id = some a :=
    findById_eq_of_mem (fun x => x.id) repo hnd a ha
  rw [h1, h2]
  simp [hown]

theorem owner_of_transmission_map (f : TransmissionInfo → TransmissionInfo)
    (hf : ∀ t, (f t).id = t.id) (hown : ∀ t, (f t).owner_player = t.owner_player)
    (repo : List TransmissionInfo) (hnd : (repo.map (·.id)).Nodup)
    (t : TransmissionInfo) (ht : t ∈ repo) :
    TransmissionRepo.owner_of (repo.map f) t.id = t.owner_player := by
  unfold TransmissionRepo.owner_of TransmissionRepo.findById
  have h1 : Repo.findById (fun x => x.id) (repo.map f) t.id
      = (Repo.findById (fun x => x.id) repo t.id).map f := findById_map _ f hf repo t.id
  have h2 : Repo.findById (fun x => x.id) repo t.id = some t :=
    findById_eq_of_mem (fun x => x.id) repo hnd t ht
  rw [h1, h2]
  simp [hown]

theorem melt_ice_creams_char (gs : GameState) (m : MarketCouplingResult)
    (hmc : gs.market_coupling_result = some m)
    (hnd : (gs.assets.map (·.id)).Nodup) :
    Referee.melt_ice_creams gs = some
      ({gs with assets := gs.assets.map fun a =>
          if a.id ∈ (meltedZero gs m).map (·.id) then AssetInfo.decreased a else a},
        (meltedZero gs m).map fun a =>
          FromGameMessage.IceCreamMeltedMessage a.owner_player a.id) := by
  have hsubl : List.Sublist (meltedZero gs m) gs.assets :=
    (List.filter_sublist _).trans (List.filter_sublist _)
  have hndS : ((meltedZero gs m).map (fun a => a.id)).Nodup := (hsubl.map _).nodup hnd
  have hassets :
      (decayLoop (fun load => !(load.health == 0) && (m.assets_dispatch load.id == 0))
        (fun a => a.id) AssetRepo.melt_ice_cream (AssetRepo.only_freezers gs.assets)
        gs.assets []).1
      = gs.assets.map (fun a =>
          if a.id ∈ (meltedZero gs m).map (·.id) then AssetInfo.decreased a else a) := by
    have h1 := decayLoop_fst
      (fun load : AssetInfo => !(load.health == 0) && (m.assets_dispatch load.id == 0))
      (fun a => a.id) AssetRepo.melt_ice_cream (AssetRepo.only_freezers gs.assets) gs.assets []
    have h2 : List.foldl AssetRepo.melt_ice_cream gs.assets
        (((AssetRepo.only_freezers gs.assets).filter
          (fun load => !(load.health == 0) && (m.assets_dispatch load.id == 0))).map
            (fun a => a.id))
        = gs.assets.map (fun a =>
            if a.id ∈ (meltedZero gs m).map (·.id) then AssetInfo.decreased a else a) := by
      have h3 := foldl_updateById_eq_map (fun a : AssetInfo => a.id) AssetInfo.decreased
        AssetInfo.decreased_id ((meltedZero gs m).map (fun a => a.id)) hndS gs.assets
      exact h3
    exact h1.trans h2
  have hids :
      (decayLoop (fun load => !(load.health == 0) && (m.assets_dispatch load.id == 0))
        (fun a => a.id) AssetRepo.melt_ice_cream (AssetRepo.only_freezers gs.assets)
        gs.assets []).2
      = (meltedZero gs m).map (fun a => a.id) := by
    have h1 := decayLoop_snd
      (fun load : AssetInfo => !(load.health == 0) && (m.assets_dispatch load.id == 0))
      (fun a => a.id) AssetRepo.melt_ice_cream (AssetRepo.only_freezers gs.assets) gs.assets []
    rw [List.nil_append] at h1
    exact h1
  unfold Referee.melt_ice_creams
  rw [hmc]
  dsimp only
  rw [hassets, hids]
  refine congrArg some (congrArg (Prod.mk _) ?_)
  rw [List.map_map]
  refine list_map_congr_mem ?_
  intro a ha
  have haR : a ∈ gs.assets := hsubl.subset ha
  have hown := owner_of_asset_map
    (fun a => if a.id ∈ (meltedZero gs m).map (·.id) then AssetInfo.decreased a else a)
    (fun a => by dsimp only; split <;> simp [AssetInfo.decreased_id])
    (fun a => by dsimp only; split <;> simp [AssetInfo.decreased_owner])
    gs.assets hnd a haR
  simp only [Function.comp]
  rw [hown]

theorem wear_congested_transmission_char (gs : GameState) (m : MarketCouplingResult)
    (hmc : gs.market_coupling_result = some m)
    (hnd : (gs.transmission.map (·.id)).Nodup) :
    Referee.wear_congested_transmission gs = some
      ({gs with transmission := gs.transmission.map fun t =>
          if t.id ∈ (wornLines gs m).map (·.id) then TransmissionInfo.decreased t else t},
        (wornLines gs m).map fun t =>
          FromGameMessage.TransmissionWornMessage t.owner_player t.id) := by
  have hsubl : List.Sublist (wornLines gs m) gs.transmission := List.filter_sublist _
  have hndS : ((wornLines gs m).map (fun t => t.id)).Nodup := (hsubl.map _).nodup hnd
  have hlines :
      (decayLoop (fun t => !(t.health == 0) && npIsClose t.capacity (m.transmission_flows t.id))
        (fun t => t.id) TransmissionRepo.wear_transmission gs.transmission
        gs.transmission []).1
      = gs.transmission.map (fun t =>
          if t.id ∈ (wornLines gs m).map (·.id) then TransmissionInfo.decreased t else t) := by
    have h1 := decayLoop_fst
      (fun t : TransmissionInfo => !(t.health == 0) && npIsClose t.capacity (m.transmission_flows t.id))
      (fun t => t.id) TransmissionRepo.wear_transmission gs.transmission gs.transmission []
    have h2 : List.foldl TransmissionRepo.wear_transmission gs.transmission
        ((gs.transmission.filter
          (fun t => !(t.health == 0) && npIsClose t.capacity (m.transmission_flows t.id))).map
            (fun t => t.id))
        = gs.transmission.map (fun t =>
            if t.id ∈ (wornLines gs m).map (·.id) then TransmissionInfo.decreased t else t) := by
      have h3 := foldl_updateById_eq_map (fun t : TransmissionInfo => t.id)
        TransmissionInfo.decreased TransmissionInfo.tline_decreased_id
        ((wornLines gs m).map (fun t => t.id)) hndS gs.transmission
      exact h3
    exact h1.trans h2
  have hids :
      (decayLoop (fun t => !(t.health == 0) && npIsClose t.capacity (m.transmission_flows t.id))
        (fun t => t.id) TransmissionRepo.wear_transmission gs.transmission
        gs.transmission []).2
      = (wornLines gs m).map (fun t => t.id) := by
    have h1 := decayLoop_snd
      (fun t : TransmissionInfo => !(t.health == 0) && npIsClose t.capacity (m.transmission_flows t.id))
      (fun t => t.id) TransmissionRepo.wear_transmission gs.transmission gs.transmission []
    rw [List.nil_append] at h1
    exact h1
  unfold Referee.wear_congested_transmission
  rw [hmc]
  dsimp only
  rw [hlines, hids]
  refine congrArg some (congrArg (Prod.mk _) ?_)
  rw [List.map_map]
  refine list_map_congr_mem ?_
  intro t ht
  have htR : t ∈ gs.transmission := hsubl.subset ht
  have hown := owner_of_transmission_map
    (fun t => if t.id ∈ (wornLines gs m).map (·.id) then TransmissionInfo.decreased t else t)
    (fun t => by dsimp only; split <;> simp [TransmissionInfo.tline_decreased_id])
    (fun t => by dsimp only; split <;> simp [TransmissionInfo.tline_decreased_owner])
    gs.transmission hnd t htR
  simp only [Function.comp]
  rw [hown]

theorem AssetInfo.decreased_inv (a : AssetInfo) (h : a.health = 0 ↔ a.is_active = false) :
    (AssetInfo.decreased a).health = 0 ↔ (AssetInfo.decreased a).is_active = false := by
  by_cases h0 : (AssetInfo.decreased a).health = 0
  · simp [h0, AssetInfo.decreased_active_zero a h0]
  · have hact : (AssetInfo.decreased a).is_active = a.is_active :=
      AssetInfo.decreased_active_pos a h0
    have hh : a.health ≠ 0 := by
      intro hz
      apply h0
      unfold AssetInfo.decreased
      rw [if_neg (by omega)]
    have htrue : a.is_active = true := by
      cases hA : a.is_active
      · exact absurd (h.mpr hA) hh
      · rfl
    rw [hact, htrue]
    simp [h0]

theorem TransmissionInfo.tline_decreased_inv (t : TransmissionInfo)
    (h : t.health = 0 ↔ t.is_active = false) :
    (TransmissionInfo.decreased t).health = 0 ↔ (TransmissionInfo.decreased t).is_active = false := by
  by_cases h0 : (TransmissionInfo.decreased t).health = 0
  · simp [h0, TransmissionInfo.tline_decreased_active_zero t h0]
  · have hact : (TransmissionInfo.decreased t).is_active = t.is_active :=
      TransmissionInfo.tline_decreased_active_pos t h0
    have hh : t.health ≠ 0 := by
      intro hz
      apply h0
      unfold TransmissionInfo.decreased
      rw [if_neg (by omega)]
    have htrue : t.is_active = true := by
      cases hA : t.is_active
      · exact absurd (h.mpr hA) hh
      · rfl
    rw [hact, htrue]
    simp [h0]

theorem melt_zero_result (gs : GameState) (r : GameState × List FromGameMessage)
    (h : Referee.melt_ice_creams gs = some r) :
    ∃ m, gs.market_coupling_result = some m
      ∧ r.1 = {gs with assets :=
          (decayLoop (fun load => !(load.health == 0) && (m.assets_dispatch load.id == 0))
            (fun a => a.id) AssetRepo.melt_ice_cream (AssetRepo.only_freezers gs.assets)
            gs.assets []).1} := by
  unfold Referee.melt_ice_creams at h
  cases hmc : gs.market_coupling_result with
  | none => rw [hmc] at h; cases h
  | some m =>
    rw [hmc] at h
    dsimp only at h
    exact ⟨m, rfl, by rw [← Option.some.inj h]⟩

theorem melt_src_result (gs : GameState) (r : GameState × List FromGameMessage)
    (h : RefereeSrc.melt_ice_creams gs = some r) :
    ∃ m, gs.market_coupling_result = some m
      ∧ r.1 = {gs with assets :=
          (decayLoop (fun load => !(load.health == 0)
              && decide (m.assets_dispatch load.id < load.power_expected))
            (fun a => a.id) AssetRepo.melt_ice_cream (AssetRepo.only_freezers gs.assets)
            gs.assets []).1} := by
  unfold RefereeSrc.melt_ice_creams at h
  cases hmc : gs.market_coupling_result with
  | none => rw [hmc] at h; cases h
  | some m =>
    rw [hmc] at h
    dsimp only at h
    exact ⟨m, rfl, by rw [← Option.some.inj h]⟩

theorem wear_congested_result (gs : GameState) (r : GameState × List FromGameMessage)
    (h : Referee.wear_congested_transmission gs = some r) :
    ∃ m, gs.market_coupling_result = some m
      ∧ r.1 = {gs with transmission :=
          (decayLoop (fun t => !(t.health == 0) && npIsClose t.capacity (m.transmission_flows t.id))
            (fun t => t.id) TransmissionRepo.wear_transmission gs.transmission
            gs.transmission []).1} := by
  unfold Referee.wear_congested_transmission at h
  cases hmc : gs.market_coupling_result with
  | none => rw [hmc] at h; cases h
  | some m =>
    rw [hmc] at h
    dsimp only at h
    exact ⟨m, rfl, by rw [← Option.some.inj h]⟩

/-- C2: for every freezer with health > 0, MeltIceCreams (zero-dispatch rule)
decrements its health by one iff its dispatch at snapshot 0 is exactly 0, sets
is_active = false exactly when health reaches 0, leaves freezers with non-zero
dispatch (and all other assets) unchanged, and emits exactly one
IceCreamMeltedMessage per melted freezer addressed to its owner. -/
theorem C2_melt_ice_creams (gs : GameState) (m : MarketCouplingResult)
    (gs2 : GameState) (msgs : List FromGameMessage)
    (hmc : gs.market_coupling_result = some m)
    (hnd : (gs.assets.map (·.id)).Nodup)
    (h : Referee.melt_ice_creams gs = some (gs2, msgs)) :
    (∀ a ∈ gs.assets, a.is_freezer = true → a.health ≠ 0 →
      (m.assets_dispatch a.id = 0 →
        ∃ b, AssetRepo.findById gs2.assets a.id = some b
          ∧ b.health = a.health - 1
          ∧ (b.health = 0 → b.is_active = false)
          ∧ (b.health ≠ 0 → b.is_active = a.is_active)
          ∧ b.owner_player = a.owner_player ∧ b.is_freezer = a.is_freezer)
      ∧ (m.assets_dispatch a.id ≠ 0 → AssetRepo.findById gs2.assets a.id = some a))
    ∧ (∀ a ∈ gs.assets, a.is_freezer = false ∨ a.health = 0 →
        AssetRepo.findById gs2.assets a.id = some a)
    ∧ msgs = (meltedZero gs m).map (fun a =>
        FromGameMessage.IceCreamMeltedMessage a.owner_player a.id) := by
  have hchar := melt_ice_creams_char gs m hmc hnd
  have hpair := Option.some.inj (h.symm.trans hchar)
  have hgs2 : gs2 = {gs with assets := gs.assets.map fun a =>
      if a.id ∈ (meltedZero gs m).map (·.id) then AssetInfo.decreased a else a} :=
    congrArg Prod.fst hpair
  have hmsgs : msgs = (meltedZero gs m).map (fun a =>
      FromGameMessage.IceCreamMeltedMessage a.owner_player a.id) :=
    congrArg Prod.snd hpair
  have hsubl : List.Sublist (meltedZero gs m) gs.assets :=
    (List.filter_sublist _).trans (List.filter_sublist _)
  have hFid : ∀ x : AssetInfo,
      ((fun a => if a.id ∈ (meltedZero gs m).map (·.id) then AssetInfo.decreased a else a) x).id
        = x.id := by
    intro x
    dsimp only
    split <;> simp [AssetInfo.decreased_id]
  have hfind : ∀ a ∈ gs.assets, AssetRepo.findById gs2.assets a.id
      = some (if a.id ∈ (meltedZero gs m).map (·.id) then AssetInfo.decreased a else a) := by
    intro a ha
    rw [hgs2]
    show Repo.findById (fun x => x.id)
      (gs.assets.map fun a =>
        if a.id ∈ (meltedZero gs m).map (·.id) then AssetInfo.decreased a else a) a.id = _
    rw [findById_map (fun x => x.id) _ hFid gs.assets a.id]
    rw [show Repo.findById (fun x => x.id) gs.assets a.id = some a from
      findById_eq_of_mem (fun x => x.id) gs.assets hnd a ha]
    rfl
  have hmem_iff : ∀ a ∈ gs.assets,
      (a.id ∈ (meltedZero gs m).map (·.id) ↔ a ∈ meltedZero gs m) := by
    intro a ha
    exact mem_map_getId_sub_iff (fun x => x.id) gs.assets (meltedZero gs m) hnd
      (fun b hb => hsubl.subset hb) a ha
  refine ⟨?_, ?_, hmsgs⟩
  · intro a ha hfz hh
    constructor
    · intro hd0
      have hmelt : a ∈ meltedZero gs m := by
        unfold meltedZero
        refine List.mem_filter.mpr ⟨List.mem_filter.mpr ⟨ha, hfz⟩, ?_⟩
        unfold meltHitZero
        simp [hh, hd0]
      have hmem : a.id ∈ (meltedZero gs m).map (·.id) := (hmem_iff a ha).mpr hmelt
      refine ⟨AssetInfo.decreased a, ?_, AssetInfo.decreased_health a hh,
        AssetInfo.decreased_active_zero a, AssetInfo.decreased_active_pos a,
        AssetInfo.decreased_owner a, AssetInfo.decreased_freezer a⟩
      rw [hfind a ha, if_pos hmem]
    · intro hdne
      have hnotmelt : a ∉ meltedZero gs m := by
        intro hmelt
        have h2 := (List.mem_filter.mp hmelt).2
        unfold meltHitZero at h2
        simp [hh] at h2
        exact hdne h2
      have hnotmem : a.id ∉ (meltedZero gs m).map (·.id) := fun hmem =>
        hnotmelt ((hmem_iff a ha).mp hmem)
      rw [hfind a ha, if_neg hnotmem]
  · intro a ha hcase
    have hnotmelt : a ∉ meltedZero gs m := by
      intro hmelt
      have h1 := (List.mem_filter.mp (List.mem_filter.mp hmelt).1).2
      have h2 := (List.mem_filter.mp hmelt).2
      unfold meltHitZero at h2
      rcases hcase with hfz | hh
      · rw [hfz] at h1; cases h1
      · simp [hh] at h2
    have hnotmem : a.id ∉ (meltedZero gs m).map (·.id) := fun hmem =>
      hnotmelt ((hmem_iff a ha).mp hmem)
    rw [hfind a ha, if_neg hnotmem]

/-- C6 counterexample: line 21 is active with health 1 and carries flow -5 on
capacity 5; the absolute flow is within numerical tolerance of the capacity, so
the claim demands its health drop to 0 (and a worn message), but the source
compares the signed flow with the capacity and leaves the line untouched. -/
theorem C6_counterexample :
    npIsClose |Ex.m.transmission_flows Ex.line2.id| Ex.line2.capacity = true
    ∧ Ex.line2.health = 1 ∧ Ex.line2.is_active = true
    ∧ Referee.wear_congested_transmission Ex.gs = some (Ex.wornState, Ex.wornMsgs)
    ∧ TransmissionRepo.findById Ex.wornState.transmission Ex.line2.id = some Ex.line2 :=
  ⟨by with_unfolding_all rfl, rfl, rfl, by with_unfolding_all rfl, by with_unfolding_all rfl⟩

/-- C6 (amended): WearCongestedTransmission decrements by 1 (deactivating on
reaching 0) the health of exactly those lines with health > 0 whose signed flow
at snapshot 0 is np.isclose to their capacity (is_active is not consulted);
it emits one TransmissionWornMessage per such line addressed to its owner, and
every other line is unchanged. -/
theorem C6_wear_congested_transmission (gs : GameState) (m : MarketCouplingResult)
    (gs2 : GameState) (msgs : List FromGameMessage)
    (hmc : gs.market_coupling_result = some m)
    (hnd : (gs.transmission.map (·.id)).Nodup)
    (h : Referee.wear_congested_transmission gs = some (gs2, msgs)) :
    (∀ t ∈ gs.transmission, t.health ≠ 0 →
      (npIsClose t.capacity (m.transmission_flows t.id) = true →
        ∃ u, TransmissionRepo.findById gs2.transmission t.id = some u
          ∧ u.health = t.health - 1
          ∧ (u.health = 0 → u.is_active = false)
          ∧ (u.health ≠ 0 → u.is_active = t.is_active)
          ∧ u.owner_player = t.owner_player)
      ∧ (npIsClose t.capacity (m.transmission_flows t.id) = false →
          TransmissionRepo.findById gs2.transmission t.id = some t))
    ∧ (∀ t ∈ gs.transmission, t.health = 0 →
        TransmissionRepo.findById gs2.transmission t.id = some t)
    ∧ msgs = (wornLines gs m).map (fun t =>
        FromGameMessage.TransmissionWornMessage t.owner_player t.id) := by
  have hchar := wear_congested_transmission_char gs m hmc hnd
  have hpair := Option.some.inj (h.symm.trans hchar)
  have hgs2 : gs2 = {gs with transmission := gs.transmission.map fun t =>
      if t.id ∈ (wornLines gs m).map (·.id) then TransmissionInfo.decreased t else t} :=
    congrArg Prod.fst hpair
  have hmsgs : msgs = (wornLines gs m).map (fun t =>
      FromGameMessage.TransmissionWornMessage t.owner_player t.id) :=
    congrArg Prod.snd hpair
  have hsubl : List.Sublist (wornLines gs m) gs.transmission := List.filter_sublist _
  have hFid : ∀ x : TransmissionInfo,
      ((fun t => if t.id ∈ (wornLines gs m).map (·.id) then TransmissionInfo.decreased t else t)
        x).id = x.id := by
    intro x
    dsimp only
    split <;> simp [TransmissionInfo.tline_decreased_id]
  have hfind : ∀ t ∈ gs.transmission, TransmissionRepo.findById gs2.transmission t.id
      = some (if t.id ∈ (wornLines gs m).map (·.id) then TransmissionInfo.decreased t else t) := by
    intro t ht
    rw [hgs2]
    show Repo.findById (fun x => x.id)
      (gs.transmission.map fun t =>
        if t.id ∈ (wornLines gs m).map (·.id) then TransmissionInfo.decreased t else t) t.id = _
    rw [findById_map (fun x => x.id) _ hFid gs.transmission t.id]
    rw [show Repo.findById (fun x => x.id) gs.transmission t.id = some t from
      findById_eq_of_mem (fun x => x.id) gs.transmission hnd t ht]
    rfl
  have hmem_iff : ∀ t ∈ gs.transmission,
      (t.id ∈ (wornLines gs m).map (·.id) ↔ t ∈ wornLines gs m) := by
    intro t ht
    exact mem_map_getId_sub_iff (fun x => x.id) gs.transmission (wornLines gs m) hnd
      (fun b hb => hsubl.subset hb) t ht
  refine ⟨?_, ?_, hmsgs⟩
  · intro t ht hh
    constructor
    · intro hcl
      have hworn : t ∈ wornLines gs m := by
        unfold wornLines
        refine List.mem_filter.mpr ⟨ht, ?_⟩
        simp [hh, hcl]
      have hmem : t.id ∈ (wornLines gs m).map (·.id) := (hmem_iff t ht).mpr hworn
      refine ⟨TransmissionInfo.decreased t, ?_, TransmissionInfo.tline_decreased_health t hh,
        TransmissionInfo.tline_decreased_active_zero t, TransmissionInfo.tline_decreased_active_pos t,
        TransmissionInfo.tline_decreased_owner t⟩
      rw [hfind t ht, if_pos hmem]
    · intro hncl
      have hnotworn : t ∉ wornLines gs m := by
        intro hworn
        have h2 := (List.mem_filter.mp hworn).2
        simp [hh, hncl] at h2
      have hnotmem : t.id ∉ (wornLines gs m).map (·.id) := fun hmem =>
        hnotworn ((hmem_iff t ht).mp hmem)
      rw [hfind t ht, if_neg hnotmem]
  · intro t ht hh
    have hnotworn : t ∉ wornLines gs m := by
      intro hworn
      have h2 := (List.mem_filter.mp hworn).2
      simp [hh] at h2
    have hnotmem : t.id ∉ (wornLines gs m).map (·.id) := fun hmem =>
      hnotworn ((hmem_iff t ht).mp hmem)
    rw [hfind t ht, if_neg hnotmem]

/-- Witness for C2 at the concrete world: the freezer has dispatch 0, melts from
health 3 to 2, and exactly one melted message addressed to its owner is emitted. -/
theorem C2_witness :
    ((∀ a ∈ Ex.gs.assets, a.is_freezer = true → a.health ≠ 0 →
      (Ex.m.assets_dispatch a.id = 0 →
        ∃ b, AssetRepo.findById Ex.meltedState.assets a.id = some b
          ∧ b.health = a.health - 1
          ∧ (b.health = 0 → b.is_active = false)
          ∧ (b.health ≠ 0 → b.is_active = a.is_active)
          ∧ b.owner_player = a.owner_player ∧ b.is_freezer = a.is_freezer)
      ∧ (Ex.m.assets_dispatch a.id ≠ 0 →
          AssetRepo.findById Ex.meltedState.assets a.id = some a))
    ∧ (∀ a ∈ Ex.gs.assets, a.is_freezer = false ∨ a.health = 0 →
        AssetRepo.findById Ex.meltedState.assets a.id = some a)
    ∧ Ex.meltMsgs = (meltedZero Ex.gs Ex.m).map (fun a =>
        FromGameMessage.IceCreamMeltedMessage a.owner_player a.id)) :=
  C2_melt_ice_creams Ex.gs Ex.m Ex.meltedState Ex.meltMsgs rfl (by decide) rfl

/-- Witness for (amended) C6 at the concrete world: line 20 at +capacity is worn
from health 2 to 1 with one worn message; line 21 at -capacity is untouched. -/
theorem C6_witness :
    ((∀ t ∈ Ex.gs.transmission, t.health ≠ 0 →
      (npIsClose t.capacity (Ex.m.transmission_flows t.id) = true →
        ∃ u, TransmissionRepo.findById Ex.wornState.transmission t.id = some u
          ∧ u.health = t.health - 1
          ∧ (u.health = 0 → u.is_active = false)
          ∧ (u.health ≠ 0 → u.is_active = t.is_active)
          ∧ u.owner_player = t.owner_player)
      ∧ (npIsClose t.capacity (Ex.m.transmission_flows t.id) = false →
          TransmissionRepo.findById Ex.wornState.transmission t.id = some t))
    ∧ (∀ t ∈ Ex.gs.transmission, t.health = 0 →
        TransmissionRepo.findById Ex.wornState.transmission t.id = some t)
    ∧ Ex.wornMsgs = (wornLines Ex.gs Ex.m).map (fun t =>
        FromGameMessage.TransmissionWornMessage t.owner_player t.id)) :=
  C6_wear_congested_transmission Ex.gs Ex.m Ex.wornState Ex.wornMsgs rfl (by decide)
    (by with_unfolding_all rfl)

theorem findById_updateById_self (getId : α → Int) (f : α → α)
    (hf : ∀ a, getId (f a) = getId a) (repo : List α) (i : Int) (a : α)
    (ha : Repo.findById getId repo i = some a) :
    Repo.findById getId (Repo.updateById getId f i repo) i = some (f a) := by
  unfold Repo.updateById
  rw [findById_map getId (fun x => if getId x == i then f x else x)
    (fun x => by dsimp only; split <;> simp [hf]) repo i]
  rw [ha]
  have hid : getId a = i := findById_some_id getId repo i a ha
  simp [hid]

/-- C5: ValidatePurchase returns a non-empty list (a single failure BuyResponse)
iff the purchase does not exist, or it is not for sale, or the player's money is
below its minimum_acquisition_price; otherwise it returns the empty list. The
function is pure: it only reads gs and returns a message list. -/
theorem C5_validate_purchase (gs : GameState) (player_id : PlayerId) (purch : PurchaseId)
    (p : Player) (l : List FromGameMessage)
    (hp : PlayerRepo.findById gs.players player_id = some p)
    (h : Referee.validate_purchase gs player_id purch = some l) :
    (l ≠ [] → l = [FromGameMessage.BuyResponse player_id false purch])
    ∧ (l ≠ [] ↔
        (match purch with
         | .asset i =>
           AssetRepo.findById gs.assets i = none
           ∨ ∃ a, AssetRepo.findById gs.assets i = some a
               ∧ (a.is_for_sale = false ∨ p.money < a.minimum_acquisition_price)
         | .transmission i =>
           TransmissionRepo.findById gs.transmission i = none
           ∨ ∃ t, TransmissionRepo.findById gs.transmission i = some t
               ∧ (t.is_for_sale = false ∨ p.money < t.minimum_acquisition_price))) := by
  unfold Referee.validate_purchase at h
  rw [hp] at h
  cases purch with
  | asset i =>
    dsimp only at h
    cases hf : AssetRepo.findById gs.assets i with
    | none =>
      rw [hf] at h
      have hl := (Option.some.inj h).symm
      subst hl
      exact ⟨fun _ => rfl, by simp [hf]⟩
    | some a =>
      rw [hf] at h
      dsimp only at h
      by_cases hsale : a.is_for_sale = true
      · rw [if_neg (by simp [hsale])] at h
        by_cases hm : p.money < a.minimum_acquisition_price
        · rw [if_pos hm] at h
          have hl := (Option.some.inj h).symm
          subst hl
          exact ⟨fun _ => rfl, by simp [hf, hsale, hm]⟩
        · rw [if_neg hm] at h
          have hl := (Option.some.inj h).symm
          subst hl
          exact ⟨fun hne => absurd rfl hne, by simp [hf, hsale, hm]⟩
      · rw [if_pos (by simp [hsale])] at h
        have hl := (Option.some.inj h).symm
        subst hl
        refine ⟨fun _ => rfl, ?_⟩
        simp [hf]
        exact Or.inl (by simpa using hsale)
  | transmission i =>
    dsimp only at h
    cases hf : TransmissionRepo.findById gs.transmission i with
    | none =>
      rw [hf] at h
      have hl := (Option.some.inj h).symm
      subst hl
      exact ⟨fun _ => rfl, by simp [hf]⟩
    | some t =>
      rw [hf] at h
      dsimp only at h
      by_cases hsale : t.is_for_sale = true
      · rw [if_neg (by simp [hsale])] at h
        by_cases hm : p.money < t.minimum_acquisition_price
        · rw [if_pos hm] at h
          have hl := (Option.some.inj h).symm
          subst hl
          exact ⟨fun _ => rfl, by simp [hf, hsale, hm]⟩
        · rw [if_neg hm] at h
          have hl := (Option.some.inj h).symm
          subst hl
          exact ⟨fun hne => absurd rfl hne, by simp [hf, hsale, hm]⟩
      · rw [if_pos (by simp [hsale])] at h
        have hl := (Option.some.inj h).symm
        subst hl
        refine ⟨fun _ => rfl, ?_⟩
        simp [hf]
        exact Or.inl (by simpa using hsale)

/-- Witness for C5: Bob (money 5) cannot afford the for-sale NPC generator
(price 50): a single failure response comes back. -/
theorem C5_witness :
    (([FromGameMessage.BuyResponse 2 false (PurchaseId.asset 11)] : List FromGameMessage) ≠ [] →
      ([FromGameMessage.BuyResponse 2 false (PurchaseId.asset 11)] : List FromGameMessage)
        = [FromGameMessage.BuyResponse 2 false (PurchaseId.asset 11)])
    ∧ (([FromGameMessage.BuyResponse 2 false (PurchaseId.asset 11)] : List FromGameMessage) ≠ [] ↔
        (AssetRepo.findById Ex.gs.assets 11 = none
         ∨ ∃ a, AssetRepo.findById Ex.gs.assets 11 = some a
             ∧ (a.is_for_sale = false ∨ Ex.bob.money < a.minimum_acquisition_price))) :=
  C5_validate_purchase Ex.gs 2 (PurchaseId.asset 11) Ex.bob
    [FromGameMessage.BuyResponse 2 false (PurchaseId.asset 11)] rfl (by with_unfolding_all rfl)

theorem validate_purchase_shape (gs : GameState) (pid : PlayerId) (purch : PurchaseId)
    (l : List FromGameMessage) (h : Referee.validate_purchase gs pid purch = some l) :
    (∃ p, PlayerRepo.findById gs.players pid = some p)
    ∧ (l = [] ∨ l = [FromGameMessage.BuyResponse pid false purch]) := by
  unfold Referee.validate_purchase at h
  cases hp : PlayerRepo.findById gs.players pid with
  | none => rw [hp] at h; cases h
  | some p =>
    rw [hp] at h
    refine ⟨⟨p, rfl⟩, ?_⟩
    cases purch with
    | asset i =>
      dsimp only at h
      cases hf : AssetRepo.findById gs.assets i with
      | none => rw [hf] at h; exact Or.inr (Option.some.inj h).symm
      | some a =>
        rw [hf] at h
        dsimp only at h
        split at h
        · exact Or.inr (Option.some.inj h).symm
        · split at h
          · exact Or.inr (Option.some.inj h).symm
          · exact Or.inl (Option.some.inj h).symm
    | transmission i =>
      dsimp only at h
      cases hf : TransmissionRepo.findById gs.transmission i with
      | none => rw [hf] at h; exact Or.inr (Option.some.inj h).symm
      | some t =>
        rw [hf] at h
        dsimp only at h
        split at h
        · exact Or.inr (Option.some.inj h).symm
        · split at h
          · exact Or.inr (Option.some.inj h).symm
          · exact Or.inl (Option.some.inj h).symm

/-- C4: a BuyRequest on an asset or a transmission line produces exactly one
BuyResponse; on success the buyer's money drops by exactly the purchase's
minimum_acquisition_price, its owner becomes the buyer and is_for_sale is
cleared; on failure the returned state is the input state. -/
theorem C4_buy_conservation (mcc : GameState → MarketCouplingResult) (gs : GameState)
    (pid : PlayerId) (purch : PurchaseId) (gs2 : GameState) (msgs : List FromGameMessage)
    (h : Engine.handle_message mcc gs (ToGameMessage.BuyRequest pid purch) = some (gs2, msgs)) :
    ∃ success : Bool, msgs = [FromGameMessage.BuyResponse pid success purch]
      ∧ (success = false → gs2 = gs)
      ∧ (success = true →
          ∃ p, PlayerRepo.findById gs.players pid = some p
            ∧ match purch with
               | .asset i =>
                 ∃ a, AssetRepo.findById gs.assets i = some a
                   ∧ PlayerRepo.findById gs2.players pid
                       = some {p with money := p.money - a.minimum_acquisition_price}
                   ∧ AssetRepo.findById gs2.assets i
                       = some {a with owner_player := pid, is_for_sale := false}
               | .transmission i =>
                 ∃ t, TransmissionRepo.findById gs.transmission i = some t
                   ∧ PlayerRepo.findById gs2.players pid
                       = some {p with money := p.money - t.minimum_acquisition_price}
                   ∧ TransmissionRepo.findById gs2.transmission i
                       = some {t with owner_player := pid, is_for_sale := false}) := by
  cases purch with
  | asset i =>
    unfold Engine.handle_message Engine.handle_buy_asset_message at h
    dsimp only at h
    cases hv : Referee.validate_purchase gs pid (PurchaseId.asset i) with
    | none => rw [hv] at h; cases h
    | some fails =>
      rw [hv] at h
      dsimp only at h
      obtain ⟨⟨p, hp⟩, hshape⟩ :=
        validate_purchase_shape gs pid (PurchaseId.asset i) fails hv
      by_cases hemp : fails.isEmpty = true
      · rw [if_pos hemp] at h
        cases hfa : AssetRepo.findById gs.assets i with
        | none => rw [hfa] at h; cases h
        | some a =>
          rw [hfa] at h
          dsimp only at h
          have hpair := Option.some.inj h
          have hgs2 : gs2 = {gs with
              players := PlayerRepo.subtract_money gs.players pid a.minimum_acquisition_price,
              assets := AssetRepo.change_owner gs.assets a.id pid} :=
            (congrArg Prod.fst hpair).symm
          have hmsgs : msgs = [FromGameMessage.BuyResponse pid true (PurchaseId.asset a.id)] :=
            (congrArg Prod.snd hpair).symm
          have hid : a.id = i := findById_some_id (fun x => x.id) gs.assets i a
            (show Repo.findById (fun x : AssetInfo => x.id) gs.assets i = some a from hfa)
          refine ⟨true, ?_, ?_, ?_⟩
          · rw [hmsgs, hid]
          · intro hx; simp at hx
          · intro _
            refine ⟨p, hp, ?_⟩
            dsimp only
            refine ⟨a, hfa, ?_, ?_⟩
            · rw [hgs2]
              exact findById_updateById_self (fun x => x.id)
                (fun q => {q with money := q.money - a.minimum_acquisition_price})
                (fun _ => rfl) gs.players pid p
                (show Repo.findById (fun x : Player => x.id) gs.players pid = some p from hp)
            · rw [hgs2, ← hid]
              exact findById_updateById_self (fun x => x.id)
                (fun b => {b with owner_player := pid, is_for_sale := false})
                (fun _ => rfl) gs.assets a.id a
                (show Repo.findById (fun x : AssetInfo => x.id) gs.assets a.id = some a by
                  rw [hid]; exact hfa)
      · rw [if_neg hemp] at h
        have hpair := Option.some.inj h
        have hgs2 : gs2 = gs := (congrArg Prod.fst hpair).symm
        have hmsgs : msgs = fails := (congrArg Prod.snd hpair).symm
        have hfails : fails = [FromGameMessage.BuyResponse pid false (PurchaseId.asset i)] := by
          rcases hshape with hnil | hone
          · rw [hnil] at hemp; simp at hemp
          · exact hone
        refine ⟨false, ?_, fun _ => hgs2, ?_⟩
        · rw [hmsgs, hfails]
        · intro hx; simp at hx
  | transmission i =>
    unfold Engine.handle_message Engine.handle_buy_transmission_message at h
    dsimp only at h
    cases hv : Referee.validate_purchase gs pid (PurchaseId.transmission i) with
    | none => rw [hv] at h; cases h
    | some fails =>
      rw [hv] at h
      dsimp only at h
      obtain ⟨⟨p, hp⟩, hshape⟩ :=
        validate_purchase_shape gs pid (PurchaseId.transmission i) fails hv
      by_cases hemp : fails.isEmpty = true
      · rw [if_pos hemp] at h
        cases hfa : TransmissionRepo.findById gs.transmission i with
        | none => rw [hfa] at h; cases h
        | some t =>
          rw [hfa] at h
          dsimp only at h
          have hpair := Option.some.inj h
          have hgs2 : gs2 = {gs with
              players := PlayerRepo.subtract_money gs.players pid t.minimum_acquisition_price,
              transmission := TransmissionRepo.change_owner gs.transmission t.id pid} :=
            (congrArg Prod.fst hpair).symm
          have hmsgs : msgs
              = [FromGameMessage.BuyResponse pid true (PurchaseId.transmission t.id)] :=
            (congrArg Prod.snd hpair).symm
          have hid : t.id = i := findById_some_id (fun x => x.id) gs.transmission i t
            (show Repo.findById (fun x : TransmissionInfo => x.id) gs.transmission i = some t
              from hfa)
          refine ⟨true, ?_, ?_, ?_⟩
          · rw [hmsgs, hid]
          · intro hx; simp at hx
          · intro _
            refine ⟨p, hp, ?_⟩
            dsimp only
            refine ⟨t, hfa, ?_, ?_⟩
            · rw [hgs2]
              exact findById_updateById_self (fun x => x.id)
                (fun q => {q with money := q.money - t.minimum_acquisition_price})
                (fun _ => rfl) gs.players pid p
                (show Repo.findById (fun x : Player => x.id) gs.players pid = some p from hp)
            · rw [hgs2, ← hid]
              exact findById_updateById_self (fun x => x.id)
                (fun b => {b with owner_player := pid, is_for_sale := false})
                (fun _ => rfl) gs.transmission t.id t
                (show Repo.findById (fun x : TransmissionInfo => x.id) gs.transmission t.id
                    = some t by
                  rw [hid]; exact hfa)
      · rw [if_neg hemp] at h
        have hpair := Option.some.inj h
        have hgs2 : gs2 = gs := (congrArg Prod.fst hpair).symm
        have hmsgs : msgs = fails := (congrArg Prod.snd hpair).symm
        have hfails : fails
            = [FromGameMessage.BuyResponse pid false (PurchaseId.transmission i)] := by
          rcases hshape with hnil | hone
          · rw [hnil] at hemp; simp at hemp
          · exact hone
        refine ⟨false, ?_, fun _ => hgs2, ?_⟩
        · rw [hmsgs, hfails]
        · intro hx; simp at hx

/-- Witness for C4: Alice (money 100) buys the for-sale NPC generator (price 50):
one success response, money 100 to 50, ownership transferred, is_for_sale cleared. -/
theorem C4_witness :
    ∃ success : Bool,
      ([FromGameMessage.BuyResponse 1 true (PurchaseId.asset 11)] : List FromGameMessage)
        = [FromGameMessage.BuyResponse 1 success (PurchaseId.asset 11)]
      ∧ (success = false → Ex.boughtState = Ex.gs)
      ∧ (success = true →
          ∃ p, PlayerRepo.findById Ex.gs.players 1 = some p
            ∧ ∃ a, AssetRepo.findById Ex.gs.assets 11 = some a
                ∧ PlayerRepo.findById Ex.boughtState.players 1
                    = some {p with money := p.money - a.minimum_acquisition_price}
                ∧ AssetRepo.findById Ex.boughtState.assets 11
                    = some {a with owner_player := 1, is_for_sale := false}) :=
  C4_buy_conservation Oracle.zero Ex.gs 1 (PurchaseId.asset 11) Ex.boughtState
    [FromGameMessage.BuyResponse 1 true (PurchaseId.asset 11)] (by with_unfolding_all rfl)

/-- C8: for an OperateLineRequest on an existing line owned by the caller,
opening an already-open line or closing an already-closed line yields no_change
and returns the input state itself; for a line the caller does not own the
result is failure and the state is unchanged. -/
theorem C8_operate_line (gs : GameState) (msg : OperateLineRequest)
    (line : TransmissionInfo)
    (hline : TransmissionRepo.findById gs.transmission msg.transmission_id = some line) :
    (line.owner_player = msg.player_id →
      (((msg.action = LineAction.open_action ∧ line.is_open = true)
        ∨ (msg.action = LineAction.close_action ∧ line.is_closed = true)) →
        Engine.handle_operate_line_message gs msg
          = (gs, [FromGameMessage.OperateLineResponse msg.player_id msg OpResult.no_change])))
    ∧ (line.owner_player ≠ msg.player_id →
        Engine.handle_operate_line_message gs msg
          = (gs, [FromGameMessage.OperateLineResponse msg.player_id msg OpResult.failure])) := by
  have hmem := findById_mem (fun x => x.id) gs.transmission msg.transmission_id line
    (show Repo.findById (fun x : TransmissionInfo => x.id) gs.transmission msg.transmission_id
      = some line from hline)
  have hid : line.id = msg.transmission_id :=
    findById_some_id (fun x => x.id) gs.transmission msg.transmission_id line
      (show Repo.findById (fun x : TransmissionInfo => x.id) gs.transmission msg.transmission_id
        = some line from hline)
  have hidmem : msg.transmission_id ∈ gs.transmission.map (fun x => x.id) :=
    hid ▸ List.mem_map_of_mem (fun x => x.id) hmem
  unfold Engine.handle_operate_line_message
  rw [if_neg (by simp; exact hidmem)]
  rw [hline]
  dsimp only
  constructor
  · intro hown hcase
    rw [if_neg (by simp [hown])]
    rcases hcase with ⟨ha, hopen⟩ | ⟨ha, hclosed⟩
    · rw [ha]
      dsimp only
      rw [if_pos hopen]
    · rw [ha]
      dsimp only
      rw [if_pos hclosed]
  · intro hnown
    rw [if_pos (by simp; exact fun hx => hnown hx)]

/-- Witness for C8: Alice closes her already-closed line 20. -/
theorem C8_witness :
    ((Ex.line1.owner_player = Ex.closeReq.player_id →
      (((Ex.closeReq.action = LineAction.open_action ∧ Ex.line1.is_open = true)
        ∨ (Ex.closeReq.action = LineAction.close_action ∧ Ex.line1.is_closed = true)) →
        Engine.handle_operate_line_message Ex.gs Ex.closeReq
          = (Ex.gs, [FromGameMessage.OperateLineResponse Ex.closeReq.player_id Ex.closeReq
              OpResult.no_change])))
    ∧ (Ex.line1.owner_player ≠ Ex.closeReq.player_id →
        Engine.handle_operate_line_message Ex.gs Ex.closeReq
          = (Ex.gs, [FromGameMessage.OperateLineResponse Ex.closeReq.player_id Ex.closeReq
              OpResult.failure]))) :=
  C8_operate_line Ex.gs Ex.closeReq Ex.line1 rfl

/-- C1: the liquidity guard is applied with inverted polarity at the engine.
Alice owns one active freezer (power_expected 10, bid 1) and has money 100; the
settings range is [0, 1000]. The bid update to 2 satisfies
money + sign*bid*power = 100 - 20 >= 0 (validate_bid_for_asset = true), so the
claim demands success, yet the engine returns a failure response and the
unchanged state; the bid update to 20 gives 100 - 200 < 0 (validator false), so
the claim demands rejection, yet the engine accepts and writes the bid. -/
theorem C1_code_bug_eval :
    (Engine.handle_update_bid_message Ex.gs 1 10 2
        = some (Ex.gs, [FromGameMessage.UpdateBidResponse 1 false 10]))
    ∧ FinanceCalculator.validate_bid_for_asset
        (AssetRepo.get_all_for_player Ex.gs.assets 1 true) 10 2 Ex.alice.money = true
    ∧ (Engine.handle_update_bid_message Ex.gs 1 10 20
        = some ({Ex.gs with
              assets := [{Ex.freezerA with bid_price := 20}, Ex.genNpc, Ex.genBob]},
            [FromGameMessage.UpdateBidResponse 1 true 10]))
    ∧ FinanceCalculator.validate_bid_for_asset
        (AssetRepo.get_all_for_player Ex.gs.assets 1 true) 10 20 Ex.alice.money = false :=
  ⟨by with_unfolding_all rfl, by with_unfolding_all rfl,
   by with_unfolding_all rfl, by with_unfolding_all rfl⟩

theorem operate_line_result_cases (gs : GameState) (msg : OperateLineRequest) :
    (Engine.handle_operate_line_message gs msg).1 = gs
    ∨ ∃ tr, (Engine.handle_operate_line_message gs msg).1 = {gs with transmission := tr} := by
  unfold Engine.handle_operate_line_message
  dsimp only
  split
  · exact Or.inl rfl
  · split
    · exact Or.inl rfl
    · split
      · exact Or.inl rfl
      · split
        · split
          · exact Or.inl rfl
          · exact Or.inr ⟨_, rfl⟩
        · split
          · exact Or.inl rfl
          · exact Or.inr ⟨_, rfl⟩

/-- C10: handling a BuyRequest, UpdateBidRequest, OperateLineRequest or EndTurn
leaves game_id, game_settings, buses, phase and round exactly as in the input
state: these handlers replace only players, assets or transmission. -/
theorem C10_frame (mcc : GameState → MarketCouplingResult) (gs : GameState)
    (msg : ToGameMessage) (gs2 : GameState) (msgs : List FromGameMessage)
    (hmsg : msg.is_player_request)
    (h : Engine.handle_message mcc gs msg = some (gs2, msgs)) :
    gs2.game_id = gs.game_id ∧ gs2.game_settings = gs.game_settings
    ∧ gs2.buses = gs.buses ∧ gs2.phase = gs.phase ∧ gs2.round = gs.round := by
  cases msg with
  | ConcludePhase p => exact absurd hmsg (by simp [ToGameMessage.is_player_request])
  | UpdateBidRequest pid aid bid =>
    unfold Engine.handle_message Engine.handle_update_bid_message at h
    dsimp only at h
    cases hv : Engine._validate_update_bid gs pid aid bid with
    | none => rw [hv] at h; cases h
    | some fails =>
      rw [hv] at h
      dsimp only at h
      split at h
      · have hgs2 : gs2 = {gs with
            assets := AssetRepo.update_bid_price gs.assets aid bid} :=
          (congrArg Prod.fst (Option.some.inj h)).symm
        rw [hgs2]
        exact ⟨rfl, rfl, rfl, rfl, rfl⟩
      · have hgs2 : gs2 = gs := (congrArg Prod.fst (Option.some.inj h)).symm
        rw [hgs2]
        exact ⟨rfl, rfl, rfl, rfl, rfl⟩
  | BuyRequest pid purch =>
    cases purch with
    | asset i =>
      unfold Engine.handle_message Engine.handle_buy_asset_message at h
      dsimp only at h
      cases hv : Referee.validate_purchase gs pid (PurchaseId.asset i) with
      | none => rw [hv] at h; cases h
      | some fails =>
        rw [hv] at h
        dsimp only at h
        split at h
        · cases hfa : AssetRepo.findById gs.assets i with
          | none => rw [hfa] at h; cases h
          | some a =>
            rw [hfa] at h
            dsimp only at h
            have hgs2 : gs2 = {gs with
                players := PlayerRepo.subtract_money gs.players pid a.minimum_acquisition_price,
                assets := AssetRepo.change_owner gs.assets a.id pid} :=
              (congrArg Prod.fst (Option.some.inj h)).symm
            rw [hgs2]
            exact ⟨rfl, rfl, rfl, rfl, rfl⟩
        · have hgs2 : gs2 = gs := (congrArg Prod.fst (Option.some.inj h)).symm
          rw [hgs2]
          exact ⟨rfl, rfl, rfl, rfl, rfl⟩
    | transmission i =>
      unfold Engine.handle_message Engine.handle_buy_transmission_message at h
      dsimp only at h
      cases hv : Referee.validate_purchase gs pid (PurchaseId.transmission i) with
      | none => rw [hv] at h; cases h
      | some fails =>
        rw [hv] at h
        dsimp only at h
        split at h
        · cases hfa : TransmissionRepo.findById gs.transmission i with
          | none => rw [hfa] at h; cases h
          | some t =>
            rw [hfa] at h
            dsimp only at h
            have hgs2 : gs2 = {gs with
                players := PlayerRepo.subtract_money gs.players pid t.minimum_acquisition_price,
                transmission := TransmissionRepo.change_owner gs.transmission t.id pid} :=
              (congrArg Prod.fst (Option.some.inj h)).symm
            rw [hgs2]
            exact ⟨rfl, rfl, rfl, rfl, rfl⟩
        · have hgs2 : gs2 = gs := (congrArg Prod.fst (Option.some.inj h)).symm
          rw [hgs2]
          exact ⟨rfl, rfl, rfl, rfl, rfl⟩
  | OperateLineRequestMsg req =>
    unfold Engine.handle_message at h
    dsimp only at h
    have hgs2 : gs2 = (Engine.handle_operate_line_message gs req).1 := by
      have hpair := Option.some.inj h
      exact (congrArg Prod.fst hpair).symm
    rcases operate_line_result_cases gs req with hcase | ⟨tr, hcase⟩
    · rw [hgs2, hcase]
      exact ⟨rfl, rfl, rfl, rfl, rfl⟩
    · rw [hgs2, hcase]
      exact ⟨rfl, rfl, rfl, rfl, rfl⟩
  | EndTurn pid =>
    unfold Engine.handle_message Engine.handle_end_turn_message at h
    dsimp only at h
    split at h
    · have hgs2 : gs2 = {gs with players := PlayerRepo.end_turn gs.players pid} :=
        (congrArg Prod.fst (Option.some.inj h)).symm
      rw [hgs2]
      exact ⟨rfl, rfl, rfl, rfl, rfl⟩
    · have hgs2 : gs2 = {gs with players := PlayerRepo.end_turn gs.players pid} :=
        (congrArg Prod.fst (Option.some.inj h)).symm
      rw [hgs2]
      exact ⟨rfl, rfl, rfl, rfl, rfl⟩

/-- Witness for C10: Bob ends his turn; game_id, settings, buses, phase and round
are untouched. -/
theorem C10_witness :
    Ex.endTurnState.game_id = Ex.gs.game_id
    ∧ Ex.endTurnState.game_settings = Ex.gs.game_settings
    ∧ Ex.endTurnState.buses = Ex.gs.buses
    ∧ Ex.endTurnState.phase = Ex.gs.phase
    ∧ Ex.endTurnState.round = Ex.gs.round :=
  C10_frame Oracle.zero Ex.gs (ToGameMessage.EndTurn 2) Ex.endTurnState [] trivial rfl

/-- C7 counterexample: an inactive generator with health 2 (e.g. one shut down by
debt deactivation) is worn to health 1 and stays inactive, so after
WearNonFreezerAssets the state contains an asset with health 1 and
is_active = false, violating health = 0 iff not is_active as an unconditional
postcondition. -/
theorem C7_counterexample :
    (Referee.wear_non_freezer_assets Ex7.gs).1.assets = [{Ex7.gen with health := 1}]
    ∧ ¬(({Ex7.gen with health := 1}).health = 0 ↔ ({Ex7.gen with health := 1}).is_active = false) :=
  ⟨rfl, by decide⟩

/-- C7 (amended): provided every asset and line satisfies health = 0 iff
is_active = false beforehand, the property still holds for every asset and line
after MeltIceCreams, WearCongestedTransmission and WearNonFreezerAssets. -/
theorem C7_health_active_invariant (gs : GameState) (hinv : healthActiveInv gs) :
    (∀ gs2 msgs, Referee.melt_ice_creams gs = some (gs2, msgs) → healthActiveInv gs2)
    ∧ (∀ gs2 msgs, Referee.wear_congested_transmission gs = some (gs2, msgs) →
        healthActiveInv gs2)
    ∧ healthActiveInv (Referee.wear_non_freezer_assets gs).1 := by
  refine ⟨?_, ?_, ?_⟩
  · intro gs2 msgs h
    obtain ⟨m, hmc, hgs2⟩ := melt_zero_result gs (gs2, msgs) h
    dsimp only at hgs2
    constructor
    · intro a ha
      rw [hgs2] at ha
      dsimp only at ha
      rw [decayLoop_fst] at ha
      exact foldl_updateById_forall (fun x : AssetInfo => x.id) AssetInfo.decreased
        (fun x => x.health = 0 ↔ x.is_active = false) AssetInfo.decreased_inv
        (((AssetRepo.only_freezers gs.assets).filter
          (fun load => !(load.health == 0) && (m.assets_dispatch load.id == 0))).map
            (fun a => a.id))
        gs.assets (fun b hb => hinv.1 b hb) a
        (show a ∈ List.foldl
            (fun r i => Repo.updateById (fun x : AssetInfo => x.id) AssetInfo.decreased i r)
            gs.assets
            (((AssetRepo.only_freezers gs.assets).filter
              (fun load => !(load.health == 0) && (m.assets_dispatch load.id == 0))).map
                (fun a => a.id))
          from ha)
    · intro t ht
      rw [hgs2] at ht
      exact hinv.2 t ht
  · intro gs2 msgs h
    obtain ⟨m, hmc, hgs2⟩ := wear_congested_result gs (gs2, msgs) h
    dsimp only at hgs2
    constructor
    · intro a ha
      rw [hgs2] at ha
      exact hinv.1 a ha
    · intro t ht
      rw [hgs2] at ht
      dsimp only at ht
      rw [decayLoop_fst] at ht
      exact foldl_updateById_forall (fun x : TransmissionInfo => x.id)
        TransmissionInfo.decreased
        (fun x => x.health = 0 ↔ x.is_active = false) TransmissionInfo.tline_decreased_inv
        ((gs.transmission.filter
          (fun t => !(t.health == 0) && npIsClose t.capacity (m.transmission_flows t.id))).map
            (fun t => t.id))
        gs.transmission (fun b hb => hinv.2 b hb) t
        (show t ∈ List.foldl
            (fun r i =>
              Repo.updateById (fun x : TransmissionInfo => x.id) TransmissionInfo.decreased i r)
            gs.transmission
            ((gs.transmission.filter
              (fun t => !(t.health == 0) && npIsClose t.capacity (m.transmission_flows t.id))).map
                (fun t => t.id))
          from ht)
  · constructor
    · intro a ha
      have hshape : (Referee.wear_non_freezer_assets gs).1.assets
          = (decayLoop (fun a => !(a.health == 0)) (fun a => a.id) AssetRepo.wear_asset
              (gs.assets.filter fun a => !a.is_freezer) gs.assets []).1 := rfl
      rw [hshape, decayLoop_fst] at ha
      exact foldl_updateById_forall (fun x : AssetInfo => x.id) AssetInfo.decreased
        (fun x => x.health = 0 ↔ x.is_active = false) AssetInfo.decreased_inv
        (((gs.assets.filter (fun a => !a.is_freezer)).filter
          (fun a => !(a.health == 0))).map (fun a => a.id))
        gs.assets (fun b hb => hinv.1 b hb) a
        (show a ∈ List.foldl
            (fun r i => Repo.updateById (fun x : AssetInfo => x.id) AssetInfo.decreased i r)
            gs.assets
            (((gs.assets.filter (fun a => !a.is_freezer)).filter
              (fun a => !(a.health == 0))).map (fun a => a.id))
          from ha)
    · intro t ht
      exact hinv.2 t ht

/-- Witness for (amended) C7 at the concrete world, whose assets and lines all
satisfy the coupling beforehand. -/
theorem C7_witness :
    (∀ gs2 msgs, Referee.melt_ice_creams Ex.gs = some (gs2, msgs) → healthActiveInv gs2)
    ∧ (∀ gs2 msgs, Referee.wear_congested_transmission Ex.gs = some (gs2, msgs) →
        healthActiveInv gs2)
    ∧ healthActiveInv (Referee.wear_non_freezer_assets Ex.gs).1 :=
  C7_health_active_invariant Ex.gs (by constructor <;> decide)

theorem start_all_turns_human (repo : List Player) :
    ∀ q ∈ PlayerRepo.start_all_turns repo, q.id ≠ PlayerId.get_npc → q.is_having_turn = true := by
  intro q hq
  obtain ⟨x, hx, rfl⟩ := List.mem_map.mp hq
  by_cases hc : (PlayerRepo.human_player_ids repo).contains x.id = true
  · rw [if_pos hc]
    intro _
    rfl
  · rw [if_neg hc]
    intro hnpc
    exfalso
    apply hc
    have hidmem : x.id ∈ PlayerRepo.player_ids repo := List.mem_map_of_mem (fun p => p.id) hx
    have hhuman : x.id ∈ PlayerRepo.human_player_ids repo := by
      unfold PlayerRepo.human_player_ids
      refine List.mem_filter.mpr ⟨hidmem, ?_⟩
      simpa using hnpc
    exact List.elem_eq_true_of_mem hhuman

theorem _apply_rules_phase_round (gs : GameState) (r : GameState × List FromGameMessage)
    (h : Engine._apply_rules_after_market_coupling gs = some r) :
    r.1.phase = gs.phase ∧ r.1.round = gs.round := by
  unfold Engine._apply_rules_after_market_coupling at h
  cases hm : RefereeSrc.melt_ice_creams gs with
  | none => rw [hm] at h; cases h
  | some r1 =>
    obtain ⟨gs1, msgs1⟩ := r1
    rw [hm] at h
    dsimp only at h
    cases hw : Referee.wear_congested_transmission gs1 with
    | none => rw [hw] at h; cases h
    | some r2 =>
      obtain ⟨gsw, msgs2⟩ := r2
      rw [hw] at h
      dsimp only at h
      have hr : r = ((Referee.wear_non_freezer_assets gsw).1,
          msgs1 ++ msgs2 ++ (Referee.wear_non_freezer_assets gsw).2) :=
        (Option.some.inj h).symm
      obtain ⟨m1, _, hgs1⟩ := melt_src_result gs (gs1, msgs1) hm
      dsimp only at hgs1
      obtain ⟨m2, _, hgsw⟩ := wear_congested_result gs1 (gsw, msgs2) hw
      dsimp only at hgsw
      rw [hr]
      dsimp only
      constructor
      · show (Referee.wear_non_freezer_assets gsw).1.phase = gs.phase
        have h3 : (Referee.wear_non_freezer_assets gsw).1.phase = gsw.phase := rfl
        rw [h3, hgsw, hgs1]
      · show (Referee.wear_non_freezer_assets gsw).1.round = gs.round
        have h3 : (Referee.wear_non_freezer_assets gsw).1.round = gsw.round := rfl
        rw [h3, hgsw, hgs1]

theorem _process_da_phase_round (mcc : GameState → MarketCouplingResult) (gs : GameState)
    (r : GameState × List FromGameMessage)
    (h : Engine._process_day_ahead_auction_phase mcc gs = some r) :
    r.1.phase = gs.phase ∧ r.1.round = gs.round := by
  unfold Engine._process_day_ahead_auction_phase at h
  dsimp only at h
  cases happ : Engine._apply_rules_after_market_coupling
      (Engine._update_game_state_with_market_coupling_result
        (Referee.deactivate_loads_of_players_in_debt gs).1
        (mcc (Referee.deactivate_loads_of_players_in_debt gs).1)).1 with
  | none => rw [happ] at h; cases h
  | some r3 =>
    obtain ⟨gs3, msgs3⟩ := r3
    rw [happ] at h
    dsimp only at h
    have hr : r = (gs3, (Referee.deactivate_loads_of_players_in_debt gs).2 ++ msgs3) :=
      (Option.some.inj h).symm
    have hfr := _apply_rules_phase_round _ (gs3, msgs3) happ
    dsimp only at hfr
    rw [hr]
    exact hfr

/-- C3 counterexample: concluding the phase with IntEnum value 2 (DA_AUCTION in
the source) advances to the phase with value 0 and increments the round, whereas
the claimed four-phase cycle with (p+1) mod 4 predicts next value 3 with the
round unchanged: the source enum has three phases (no BIDDING) and advances
mod 3. -/
theorem C3_counterexample :
    Ex.gs.phase = Phase.DA_AUCTION ∧ Ex.gs.phase.val = 2 ∧ Ex.gs.round = 1
    ∧ (Engine.handle_new_phase_message Oracle.zero Ex.gs Phase.DA_AUCTION).map
        (fun r => (r.1.phase.val, r.1.round)) = some (0, 2)
    ∧ (Ex.gs.phase.val + 1) % 4 ≠ 0 :=
  ⟨rfl, rfl, rfl, by with_unfolding_all rfl, by decide⟩

/-- C3 (amended): handling ConcludePhase(p) in a state at phase p advances the
phase to (p+1) mod 3 along CONSTRUCTION, SNEAKY_TRICKS, DA_AUCTION (there is no
BIDDING phase), increments the round exactly when the next phase wraps to
CONSTRUCTION, and sets every human player's turn flag (hence every living
human's). -/
theorem C3_phase_advance (mcc : GameState → MarketCouplingResult) (gs : GameState)
    (p : Phase) (gs2 : GameState) (msgs : List FromGameMessage)
    (hp : gs.phase = p)
    (h : Engine.handle_new_phase_message mcc gs p = some (gs2, msgs)) :
    gs2.phase = p.get_next
    ∧ gs2.round = (if p.get_next = Phase.CONSTRUCTION then gs.round + 1 else gs.round)
    ∧ ∀ q ∈ gs2.players, q.id ≠ PlayerId.get_npc → q.is_having_turn = true := by
  cases p with
  | CONSTRUCTION =>
    unfold Engine.handle_new_phase_message Engine._process_construction_phase at h
    dsimp only at h
    have hgs2 := (congrArg Prod.fst (Option.some.inj h)).symm
    dsimp only at hgs2
    rw [hgs2]
    refine ⟨?_, ?_, ?_⟩
    · show gs.phase.get_next = Phase.CONSTRUCTION.get_next
      rw [hp]
    · show (if gs.phase.get_next.val == 0 then gs.round + 1 else gs.round)
        = (if Phase.CONSTRUCTION.get_next = Phase.CONSTRUCTION then gs.round + 1 else gs.round)
      rw [hp]
      simp [Phase.get_next, Phase.ofVal, Phase.val]
    · exact start_all_turns_human _
  | SNEAKY_TRICKS =>
    unfold Engine.handle_new_phase_message Engine._process_sneaky_tricks_phase at h
    dsimp only at h
    have hgs2 := (congrArg Prod.fst (Option.some.inj h)).symm
    dsimp only at hgs2
    rw [hgs2]
    refine ⟨?_, ?_, ?_⟩
    · show gs.phase.get_next = Phase.SNEAKY_TRICKS.get_next
      rw [hp]
    · show (if gs.phase.get_next.val == 0 then gs.round + 1 else gs.round)
        = (if Phase.SNEAKY_TRICKS.get_next = Phase.CONSTRUCTION then gs.round + 1 else gs.round)
      rw [hp]
      simp [Phase.get_next, Phase.ofVal, Phase.val]
    · exact start_all_turns_human _
  | DA_AUCTION =>
    unfold Engine.handle_new_phase_message at h
    dsimp only at h
    cases hda : Engine._process_day_ahead_auction_phase mcc gs with
    | none => rw [hda] at h; cases h
    | some r =>
      obtain ⟨g3, m3⟩ := r
      rw [hda] at h
      dsimp only at h
      have hgs2 := (congrArg Prod.fst (Option.some.inj h)).symm
      dsimp only at hgs2
      have hfr := _process_da_phase_round mcc gs (g3, m3) hda
      dsimp only at hfr
      rw [hgs2]
      refine ⟨?_, ?_, ?_⟩
      · show g3.phase.get_next = Phase.DA_AUCTION.get_next
        rw [hfr.1, hp]
      · show (if g3.phase.get_next.val == 0 then g3.round + 1 else g3.round)
          = (if Phase.DA_AUCTION.get_next = Phase.CONSTRUCTION then gs.round + 1 else gs.round)
        rw [hfr.1, hfr.2, hp]
        simp [Phase.get_next, Phase.ofVal, Phase.val]
      · exact start_all_turns_human _

/-- Witness for (amended) C3: concluding CONSTRUCTION yields SNEAKY_TRICKS, the
round stays 1, and both humans have the turn flag set. -/
theorem C3_witness :
    Ex.conNext.phase = Phase.CONSTRUCTION.get_next
    ∧ Ex.conNext.round = (if Phase.CONSTRUCTION.get_next = Phase.CONSTRUCTION
        then Ex.gsCon.round + 1 else Ex.gsCon.round)
    ∧ ∀ q ∈ Ex.conNext.players, q.id ≠ PlayerId.get_npc → q.is_having_turn = true :=
  C3_phase_advance Oracle.zero Ex.gsCon Phase.CONSTRUCTION Ex.conNext [] rfl rfl

/-- C9: the engine does send messages addressed to the NPC (PlayerId -1).
Concluding the day-ahead auction on the concrete world wears the NPC-owned
generator 11 and addresses the AssetWornMessage to the NPC; furthermore the
settlement step builds one AuctionClearedMessage per player id in the repo, the
NPC included (the caller then drops that whole batch, so no player receives an
auction-cleared message at all). -/
theorem C9_code_bug_eval :
    (Engine.handle_message Oracle.zero Ex.gs (ToGameMessage.ConcludePhase Phase.DA_AUCTION)).map
        (fun r => r.2.filter (fun msg => msg.addressee == some PlayerId.get_npc))
      = some [FromGameMessage.AssetWornMessage PlayerId.get_npc 11]
    ∧ (Engine._update_game_state_with_market_coupling_result Ex.gs Ex.m).2.filter
        (fun msg => msg.addressee == some PlayerId.get_npc)
      = [FromGameMessage.AuctionClearedMessage PlayerId.get_npc] :=
  ⟨by with_unfolding_all rfl, by with_unfolding_all rfl⟩
